import Mathlib

/-!
# Verification of the pubsub-goldberg core (portal transit + UI selection)

Shallow embedding of `portal.js` (the `Portal` class: broker connection
lifecycle, collision-triggered outbound transit, inbound message spawn,
screw-head pivot rotation, physics-body hygiene) and `ui-selection.js`
(the `UISelection` interaction manager), together with theorems settling
the specification claims about them.

JavaScript numbers are modelled as real numbers (`ℝ`); truthiness checks
on optional callbacks are modelled as `Bool` presence flags; object
handles are modelled as `Nat` identifiers.
-/

set_option maxHeartbeats 1000000

namespace PubsubGoldberg

/-! ## Geometry utilities (`utils.js`, not included under `src/`) -/

/-- Modelled from the spec: `utils.rotatePoint` from the repository's
`utils.js` (not under `src/`).  The spec describes the geometry utilities
as "point rotation about an arbitrary center": rotate the point `(x, y)`
about the center `(cx, cy)` by `angle` radians, returning the rotated
pair (the JS function returns a two-element array `[x', y']`). -/
noncomputable def rotatePoint (cx cy x y angle : ℝ) : ℝ × ℝ :=
  (cx + (x - cx) * Real.cos angle - (y - cy) * Real.sin angle,
   cy + (x - cx) * Real.sin angle + (y - cy) * Real.cos angle)

/-! ## Portal transit (`portal.js`) -/

namespace Portal

/-- The state of a portal endpoint relevant to networking.  Mirrors the
fields of the `Portal` class used by `manageConnection` / `connect` /
`disconnect` / `onConnect` / `onMessage` / `onCollision` /
`sendObjectToBroker`.  `pid` is the Lean-side identity of the portal
object (used to model the JS `===` identity test `obj.getFromPortal()
=== this`); distinct portal objects have distinct `pid`s.
`brokerConnection` holds the connection handle when present. -/
structure PortalNet where
  pid : Nat
  name : String
  portalId : String
  enabled : Bool
  connected : Bool
  brokerConnection : Option Nat
  x : ℝ
  y : ℝ
  rotation : ℝ

/-- A colliding world object as seen by `onCollision` /
`sendObjectToBroker`: its `getConfig()` result (abstracted to an
identifier `cfgBase`), static / cooling-down flags, the portal it
arrived from (`getFromPortal`, by portal identity), its rotation,
its guid, its type/color strings and forced-topic settings. -/
structure TransitObj where
  cfgBase : Nat
  static : Bool
  cooling : Bool
  fromPortal : Option Nat
  rotation : ℝ
  guid : Nat
  typeName : String
  color : String
  forceTopic : Bool
  topic : String

/-- The linear and angular velocity of the colliding physics body
(`body.getLinearVelocity()`, `body.getAngularVelocity()`). -/
structure BodyState where
  vx : ℝ
  vy : ℝ
  angVel : ℝ

/-- The wire payload built by `sendObjectToBroker`: the object's config
augmented with the frame-normalized velocity and rotation, the angular
velocity, guid and type. -/
structure Envelope where
  cfgBase : Nat
  vx : ℝ
  vy : ℝ
  rotation : ℝ
  angularVelocity : ℝ
  guid : Nat
  typeName : String

/-- `sendObjectToBroker(body, obj)`: build the transit envelope —
velocity rotated into the portal's frame by `-rotation`
(`utils.rotatePoint(0, 0, velocity.x, velocity.y, -this.group.rotation.z)`),
rotation relative to the portal
(`obj.group.rotation.z - this.group.rotation.z`) — and pick the topic
(the object's own `topic` if `obj.forceTopic && obj.topic` is truthy,
else the derived `portal/<name>/<portalId>/<type>/<color>`).  Returns
the published (topic, envelope) pair. -/
noncomputable def sendObjectToBroker (p : PortalNet) (o : TransitObj) (b : BodyState) :
    String × Envelope :=
  let normalizedV := rotatePoint 0 0 b.vx b.vy (-p.rotation)
  let env : Envelope :=
    { cfgBase := o.cfgBase
      vx := normalizedV.1
      vy := normalizedV.2
      rotation := o.rotation - p.rotation
      angularVelocity := b.angVel
      guid := o.guid
      typeName := o.typeName }
  let topic :=
    if o.forceTopic && !(o.topic == "") then o.topic
    else "portal/" ++ p.name ++ "/" ++ p.portalId ++ "/" ++ o.typeName ++ "/" ++ o.color
  (topic, env)

/-- Observable effects of the collision handler. -/
inductive Eff where
  | publish (topic : String) (env : Envelope)
  | destroyObj (guid : Nat)

/-- `onCollision(body, obj)`: return without effect when not connected,
or when the object is cooling down *and* arrived from this very portal;
otherwise, when the object is non-static, publish the envelope and
destroy the local object. -/
noncomputable def onCollision (p : PortalNet) (o : TransitObj) (b : BodyState) : List Eff :=
  if !p.connected then []
  else if o.cooling && (o.fromPortal == some p.pid) then []
  else if !o.static then
    let sent := sendObjectToBroker p o b
    [Eff.publish sent.1 sent.2, Eff.destroyObj o.guid]
  else []

/-- Number of publish effects in an effect list. -/
def countPub : List Eff → Nat
  | [] => 0
  | Eff.publish _ _ :: rest => 1 + countPub rest
  | _ :: rest => countPub rest

/-- The spawn configuration computed by `onMessage` from an inbound
envelope: position just in front of the portal
(`x + cos(rotation)*10`, `y + sin(rotation)*10`), rotation shifted by
the portal's rotation, and velocity rotated by `rotation + π`
(`utils.rotatePoint(0, 0, velocity.x, velocity.y, this.rotation + Math.PI)`). -/
noncomputable def onMessageCfg (p : PortalNet) (env : Envelope) : Envelope × ℝ × ℝ :=
  let velocity := rotatePoint 0 0 env.vx env.vy (p.rotation + Real.pi)
  ({ env with
      rotation := env.rotation + p.rotation
      vx := velocity.1
      vy := velocity.2 },
   (p.x + Real.cos p.rotation * 10, p.y + Real.sin p.rotation * 10))

/-- Result of processing one inbound message: whether
`addObjectFromMessage` was invoked, which object (if any) it returned,
and the portal recorded on the spawned object by `setFromPortal`. -/
structure MsgOutcome where
  attemptedSpawn : Bool
  spawned : Option Nat
  taggedFromPortal : Option Nat

/-- `onMessage(topic, message, payload)`: unconditionally mutate the
payload into a spawn configuration and hand it to the world registry's
`addObjectFromMessage` (modelled by the oracle `addObj`); when an object
is returned, tag it with `setFromPortal(this)`.  Note: the handler reads
none of `enabled`, `connected`, `brokerConnection`. -/
noncomputable def onMessage (p : PortalNet) (env : Envelope)
    (addObj : Envelope × ℝ × ℝ → Option Nat) : MsgOutcome :=
  let cfg := onMessageCfg p env
  match addObj cfg with
  | some h => { attemptedSpawn := true, spawned := some h, taggedFromPortal := some p.pid }
  | none => { attemptedSpawn := true, spawned := none, taggedFromPortal := none }

/-- `disconnect()`: if a broker connection exists, call its
`disconnect()` and null the reference synchronously; otherwise no-op. -/
def disconnect (p : PortalNet) : PortalNet × List Nat :=
  match p.brokerConnection with
  | none => (p, [])
  | some c => ({ p with brokerConnection := none }, [c])

end Portal

/-! ## Screw-head pivot rotation (`portal.js`: `onDownScrewHead`) -/

namespace Screw

/-- Truncation toward zero on the quotient, as performed by the
JavaScript `%` operator. -/
noncomputable def jsTrunc (q : ℝ) : ℤ := if 0 ≤ q then ⌊q⌋ else ⌈q⌉

/-- The JavaScript remainder `x % m` for `m > 0`:
`x - m * trunc(x / m)`; the result carries the sign of the dividend. -/
noncomputable def jsRem (x m : ℝ) : ℝ := x - m * (jsTrunc (x / m) : ℝ)

/-- `Math.atan2 y x`, modelled as the argument of the complex number
`x + y*i` (range `(-π, π]`). -/
noncomputable def atan2 (y x : ℝ) : ℝ := Complex.arg ⟨x, y⟩

/-- The bearing computed in `onDownScrewHead` (and again in
`onMoveScrewHead`): `atan2(pivot.y - pos.y, pivot.x - pos.x) + π/2`. -/
noncomputable def bearingOf (pivot pos : ℝ × ℝ) : ℝ :=
  atan2 (pivot.2 - pos.2) (pivot.1 - pos.1) + Real.pi / 2

/-- The flip correction recorded by `onDownScrewHead` given the bearing:
`Math.abs((this.rotation - angle) % (Math.PI*2)) > Math.PI/2 ? Math.PI : 0`. -/
noncomputable def rotationAdjustment (rotation angle : ℝ) : ℝ :=
  if |jsRem (rotation - angle) (2 * Real.pi)| > Real.pi / 2 then Real.pi else 0

/-- `onDownScrewHead(pivot, pos)`: compute the bearing from the other
screw head (the pivot) to the pointer and record the flip correction. -/
noncomputable def onDownScrewHead (rotation : ℝ) (pivot pos : ℝ × ℝ) : ℝ :=
  rotationAdjustment rotation (bearingOf pivot pos)

/-- The nonnegative representative of `x` modulo `m` (`x mod m ∈ [0, m)`
for `m > 0`).  Used only to spell out the claim's own criterion. -/
noncomputable def posMod (x m : ℝ) : ℝ := x - m * (⌊x / m⌋ : ℝ)

/-- The claim's criterion, following the spec's words: the wrapped
angular difference between two angles, i.e. the circular distance in
`[0, π]`. -/
noncomputable def wrappedAngularDiff (a b : ℝ) : ℝ :=
  min (posMod (a - b) (2 * Real.pi)) (2 * Real.pi - posMod (a - b) (2 * Real.pi))

/-- The correction the claim asserts: `π` exactly when the wrapped
angular difference between the bearing and the rotation exceeds `π/2`. -/
noncomputable def claimCorrection (rotation bearing : ℝ) : ℝ :=
  if wrappedAngularDiff bearing rotation > Real.pi / 2 then Real.pi else 0

end Screw

/-! ## UI selection manager (`ui-selection.js`) -/

namespace UIS

/-- A planar pointer position.  The JS code works with 3D positions
obtained by projecting the pointer ray to the depth of the mouse-down
point (`getMousePosGivenZ`); the claims only concern the planar `x, y`
components, so the projection itself is abstracted and events carry the
already-projected planar position. -/
abbrev Pos := ℝ × ℝ

/-- A capability record stored by `registerObject` in
`obj.userData.uisInfo`.  Callback closures are modelled by presence
flags (the JS code only tests them for truthiness before invoking
them); materials are modelled by `Nat` identifiers.  `registerObject`
never copies a `deleteable` flag, so it is always absent (`false`) for
registered objects; `unselectedMaterial` starts absent and is assigned
by `selectObject`. -/
structure UisInfo where
  moveable : Bool
  selectable : Bool
  onDown : Bool
  onDelete : Bool
  onMove : Bool
  onUp : Bool
  onSelected : Bool
  onUnselected : Bool
  selectedMaterial : Option Nat
  unselectedMaterial : Option Nat := none
  configForm : Bool
  deleteable : Bool := false

/-- The interaction state (`this.state` plus the side tables the
handlers read and write): the registry `obj.userData.uisInfo` (as a map
from object id), each object's current `material`, the configured
`selectAllowedRange`, and the mutable state fields.  In JS
`persistentSelectable` / `persistentSelected` start out undefined
(falsy) and `posAtMouseDown` / `prevPos` start out null. -/
structure SState where
  registry : Nat → Option UisInfo
  material : Nat → Nat
  selectAllowedRange : ℝ
  selectedObject : Option Nat
  isDragging : Bool
  persistentSelectable : Bool
  persistentSelected : Bool
  posAtMouseDown : Option Pos
  prevPos : Option Pos

/-- Observable effects of the handlers: capability callbacks invoked,
config-form UI calls, and material swaps. -/
inductive TE where
  | downCb (o : Nat)
  | upCb (o : Nat)
  | moveCb (o : Nat) (dx dy : ℝ)
  | selectedCb (o : Nat)
  | unselectedCb (o : Nat)
  | deleteCb (o : Nat)
  | showForm (o : Nat)
  | clearForm
  | applyMaterial (o m : Nat)
  | restoreMaterial (o m : Nat)
  | showDeleteButton

/-- `selectObject(obj)`: invoke `onSelected` if present, record the
object as the persistent selection, swap in `selectedMaterial` if
provided (remembering the original in the record's
`unselectedMaterial`), surface the config form, and show the delete
button if the record is `deleteable` (it never is, see `UisInfo`). -/
def selectObject (s : SState) (o : Nat) : SState × List TE :=
  match s.registry o with
  | none => (s, [])
  | some info =>
    let t1 : List TE := if info.onSelected then [TE.selectedCb o] else []
    let s1 := { s with selectedObject := some o, persistentSelected := true }
    let r2 : SState × List TE :=
      match info.selectedMaterial with
      | some m =>
        ({ s1 with
            registry := fun k =>
              if k = o then some { info with unselectedMaterial := some (s1.material o) }
              else s1.registry k,
            material := fun k => if k = o then m else s1.material k },
         [TE.applyMaterial o m])
      | none => (s1, [])
    let t3 : List TE := if info.configForm then [TE.showForm o] else []
    let t4 : List TE := if info.deleteable then [TE.showDeleteButton] else []
    (r2.1, t1 ++ r2.2 ++ t3 ++ t4)

/-- `unselectObject(obj)`: default a null argument to the current
selection; if the object has a capability record, invoke
`onUnselected` if present, clear the persistent selection and the
`selectedObject` slot, hide the config form, and restore the saved
material if one was recorded. -/
def unselectObject (s : SState) (objArg : Option Nat) : SState × List TE :=
  let obj : Option Nat :=
    match objArg with
    | none => s.selectedObject
    | some o => some o
  match obj with
  | none => (s, [])
  | some o =>
    match s.registry o with
    | none => (s, [])
    | some info =>
      let t1 : List TE := if info.onUnselected then [TE.unselectedCb o] else []
      let s1 := { s with persistentSelected := false, selectedObject := none }
      let r2 : SState × List TE :=
        match info.unselectedMaterial with
        | some m =>
          ({ s1 with material := fun k => if k = o then m else s1.material k },
           [TE.restoreMaterial o m])
        | none => (s1, [])
      (r2.1, t1 ++ [TE.clearForm] ++ r2.2)

/-- `onDown(e)`: if nothing is intersected, no-op.  Otherwise, if there
is a persistent selection and a *different* object was clicked,
unselect the previous selection immediately.  Then, if the clicked
object has a capability record: store it as `selectedObject`, set
`persistentSelectable` from the record, record the mouse-down and
previous positions, set `isDragging` when moveable, and invoke `onDown`
if present. -/
def onDown (s : SState) (hit : Option (Nat × Pos)) : SState × List TE :=
  match hit with
  | none => (s, [])
  | some (o, p) =>
    let r1 : SState × List TE :=
      if s.persistentSelected && !(s.selectedObject == some o) then
        unselectObject s s.selectedObject
      else (s, [])
    match r1.1.registry o with
    | none => r1
    | some info =>
      let s2 := { r1.1 with
        selectedObject := some o
        persistentSelectable := info.selectable
        posAtMouseDown := some p
        prevPos := some p }
      let s3 := if info.moveable then { s2 with isDragging := true } else s2
      let t2 : List TE := if info.onDown then [TE.downCb o] else []
      (s3, r1.2 ++ t2)

/-- `onUp(e)`: for the currently armed `selectedObject` with a
capability record, commit the selection when `selectable` and still
`persistentSelectable`, else clear the slot and the persistent flag;
then invoke `onUp` if present.  Always clear `isDragging`. -/
def onUp (s : SState) (pos : Pos) : SState × List TE :=
  let r1 : SState × List TE :=
    match s.selectedObject with
    | none => (s, [])
    | some o =>
      match s.registry o with
      | none => (s, [])
      | some info =>
        let r2 : SState × List TE :=
          if info.selectable && s.persistentSelectable then
            selectObject s o
          else
            ({ s with selectedObject := none, persistentSelected := false }, [])
        let t3 : List TE := if info.onUp then [TE.upCb o] else []
        (r2.1, r2.2 ++ t3)
  ({ r1.1 with isDragging := false }, r1.2)

/-- The planar distance `Math.sqrt(dx*dx + dy*dy)` from point `p0` to
point `q`. -/
noncomputable def distFrom (p0 q : Pos) : ℝ :=
  Real.sqrt ((q.1 - p0.1) * (q.1 - p0.1) + (q.2 - p0.2) * (q.2 - p0.2))

open Classical in
/-- The `selectable` block of `onMove`: compare the planar distance of
the pointer from the mouse-down point against `selectAllowedRange` and
permanently clear `persistentSelectable` once it is exceeded. -/
noncomputable def checkRangeUpd (s : SState) (pos : Pos) (info : UisInfo) : SState :=
  if info.selectable then
    if distFrom (s.posAtMouseDown.getD (0, 0)) pos > s.selectAllowedRange then
      { s with persistentSelectable := false }
    else s
  else s

/-- `onMove(e)`: no-op unless dragging.  For the armed object's record:
run the `selectable` range check, then, when `onMove` is present, pass
the delta from the previous position and advance `prevPos`. -/
noncomputable def onMove (s : SState) (pos : Pos) : SState × List TE :=
  if !s.isDragging then (s, [])
  else
    match s.selectedObject with
    | none => (s, [])
    | some o =>
      match s.registry o with
      | none => (s, [])
      | some info =>
        let s1 := checkRangeUpd s pos info
        if info.onMove then
          let prev := s1.prevPos.getD (0, 0)
          ({ s1 with prevPos := some pos },
           [TE.moveCb o (pos.1 - prev.1) (pos.2 - prev.2)])
        else (s1, [])

/-- `deleteSelectedObject(force)`: acts only when an object with a
record is selected and `persistentSelected || force`; unselects it
first, then invokes `onDelete` if present. -/
def deleteSelectedObject (s : SState) (force : Bool) : SState × List TE :=
  match s.selectedObject with
  | none => (s, [])
  | some o =>
    match s.registry o with
    | none => (s, [])
    | some info =>
      if s.persistentSelected || force then
        let r1 := unselectObject s (some o)
        let t2 : List TE := if info.onDelete then [TE.deleteCb o] else []
        (r1.1, r1.2 ++ t2)
      else (s, [])

/-- An input event: a pointer-down (with the picked object and
projected position, if any), a pointer-move or pointer-up (with the
projected position), or a direct select / unselect / delete call. -/
inductive Ev where
  | down (hit : Option (Nat × Pos))
  | move (pos : Pos)
  | up (pos : Pos)
  | select (o : Nat)
  | unselect (o : Option Nat)
  | delete (force : Bool)

/-- Dispatch one event to its handler. -/
noncomputable def step (s : SState) : Ev → SState × List TE
  | Ev.down h => onDown s h
  | Ev.move p => onMove s p
  | Ev.up p => onUp s p
  | Ev.select o => selectObject s o
  | Ev.unselect o => unselectObject s o
  | Ev.delete f => deleteSelectedObject s f

/-- Process a list of events in arrival order, concatenating the
emitted effects. -/
noncomputable def run (s : SState) : List Ev → SState × List TE
  | [] => (s, [])
  | e :: es =>
    let r1 := step s e
    let r2 := run r1.1 es
    (r2.1, r1.2 ++ r2.2)

/-- The constructor's initial interaction state. -/
def initState (reg : Nat → Option UisInfo) (mat : Nat → Nat) (range : ℝ) : SState :=
  { registry := reg, material := mat, selectAllowedRange := range
    selectedObject := none, isDragging := false
    persistentSelectable := false, persistentSelected := false
    posAtMouseDown := none, prevPos := none }

/-- Number of `onUnselected` invocations for object `o` in a trace. -/
def countUnsel (o : Nat) : List TE → Nat
  | [] => 0
  | TE.unselectedCb k :: rest => (if k = o then 1 else 0) + countUnsel o rest
  | _ :: rest => countUnsel o rest

/-- Number of `onSelected` invocations for object `o` in a trace. -/
def countSel (o : Nat) : List TE → Nat
  | [] => 0
  | TE.selectedCb k :: rest => (if k = o then 1 else 0) + countSel o rest
  | _ :: rest => countSel o rest

/-- Sum of the `x` components of all `onMove` deltas in a trace. -/
def sumDx : List TE → ℝ
  | [] => 0
  | TE.moveCb _ dx _ :: rest => dx + sumDx rest
  | _ :: rest => sumDx rest

/-- Sum of the `y` components of all `onMove` deltas in a trace. -/
def sumDy : List TE → ℝ
  | [] => 0
  | TE.moveCb _ _ dy :: rest => dy + sumDy rest
  | _ :: rest => sumDy rest

/-- Object `a` holds the persistent selection in state `s`. -/
def holdsPersistent (s : SState) (a : Nat) : Prop :=
  s.selectedObject = some a ∧ s.persistentSelected = true

/-- The event list of one drag session: pointer-down on `e` at `p0`, a
list of pointer-moves, then pointer-up at `pUp`. -/
def sessionEvents (e : Nat) (p0 : Pos) (moves : List Pos) (pUp : Pos) : List Ev :=
  Ev.down (some (e, p0)) :: (moves.map Ev.move ++ [Ev.up pUp])

end UIS

/-! ## Concrete interaction fixtures -/

/-- A selectable, moveable capability record with `onSelected` /
`onUnselected` callbacks (like the portal's torus/mist/tube/back
records, which carry no `selectedMaterial`). -/
def selInfo : UIS.UisInfo :=
  { moveable := true, selectable := true, onDown := false, onDelete := false
    onMove := false, onUp := false, onSelected := true, onUnselected := true
    selectedMaterial := none, configForm := false }

/-- A moveable, non-selectable record with an `onMove` callback (like
the screw-head records up to their material). -/
def moveInfo : UIS.UisInfo :=
  { moveable := true, selectable := false, onDown := false, onDelete := false
    onMove := true, onUp := false, onSelected := false, onUnselected := false
    selectedMaterial := none, configForm := false }

/-- Registry with two selectable objects `0` and `1`. -/
def regTwo : Nat → Option UIS.UisInfo := fun k => if k ≤ 1 then some selInfo else none

/-- Registry with the single object `0`, selectable. -/
def regOne : Nat → Option UIS.UisInfo := fun k => if k = 0 then some selInfo else none

/-- Registry with the single object `0`, moveable with `onMove` but not
selectable. -/
def regMove : Nat → Option UIS.UisInfo := fun k => if k = 0 then some moveInfo else none

/-- Fresh interaction state over `regTwo` with the default range 15. -/
def uisInit2 : UIS.SState := UIS.initState regTwo (fun _ => 0) 15

/-- Fresh interaction state over `regMove` with the default range 15. -/
def c7state : UIS.SState := UIS.initState regMove (fun _ => 0) 15

/-- A state in which object `0` is the persistent selection. -/
def selState : UIS.SState :=
  { registry := regTwo, material := fun _ => 0, selectAllowedRange := 15
    selectedObject := some 0, isDragging := false, persistentSelectable := true
    persistentSelected := true, posAtMouseDown := some ((0 : ℝ), 0)
    prevPos := some ((0 : ℝ), 0) }

/-- Session: down on `0`, one move to `(1,0)`, up at `(5,0)`. -/
def c7events : List UIS.Ev :=
  [UIS.Ev.down (some (0, ((0 : ℝ), 0))), UIS.Ev.move ((1 : ℝ), 0),
   UIS.Ev.up ((5 : ℝ), 0)]

/-- Session: click object `0` (down then up at the same point). -/
def c8events : List UIS.Ev :=
  [UIS.Ev.down (some (0, ((0 : ℝ), 0))), UIS.Ev.up ((0 : ℝ), 0)]

/-! ## Concrete portal fixtures used by the transit theorems -/

/-- Portal "A": rotation `0`, connected. -/
def portalA : Portal.PortalNet :=
  { pid := 0, name := "A", portalId := "1", enabled := true, connected := true
    brokerConnection := some 0, x := 0, y := 0, rotation := 0 }

/-- Portal "B": rotation `π`, connected. -/
noncomputable def portalB : Portal.PortalNet :=
  { pid := 1, name := "B", portalId := "2", enabled := true, connected := true
    brokerConnection := some 1, x := 0, y := 0, rotation := Real.pi }

/-- Portal "P": the portal an object arrived from (identity 10). -/
def portalP : Portal.PortalNet :=
  { pid := 10, name := "P", portalId := "10", enabled := true, connected := true
    brokerConnection := some 2, x := 0, y := 0, rotation := 0 }

/-- Portal "Q": a different portal (identity 11), also connected. -/
def portalQ : Portal.PortalNet :=
  { pid := 11, name := "Q", portalId := "11", enabled := true, connected := true
    brokerConnection := some 3, x := 0, y := 0, rotation := 0 }

/-- A non-static object with no transit history. -/
def plainObj : Portal.TransitObj :=
  { cfgBase := 0, static := false, cooling := false, fromPortal := none, rotation := 0
    guid := 7, typeName := "ball", color := "red", forceTopic := false, topic := "" }

/-- A non-static object that arrived from portal "P" and is still
inside its cooldown window. -/
def coolingObj : Portal.TransitObj :=
  { cfgBase := 1, static := false, cooling := true, fromPortal := some 10, rotation := 0
    guid := 8, typeName := "ball", color := "blue", forceTopic := false, topic := "" }

/-- A body with world velocity `(1, 0)` and no spin. -/
def unitBody : Portal.BodyState := { vx := 1, vy := 0, angVel := 0 }

/-- A portal that still holds a live broker connection handle, about to
be disabled. -/
def portalLive : Portal.PortalNet :=
  { pid := 2, name := "L", portalId := "3", enabled := false, connected := false
    brokerConnection := some 5, x := 0, y := 0, rotation := 0 }

/-- The portal after `disconnect()` has dropped its connection handle. -/
def portalDropped : Portal.PortalNet := (Portal.disconnect portalLive).1

/-- A sample inbound envelope. -/
def sampleEnv : Portal.Envelope :=
  { cfgBase := 0, vx := 1, vy := 0, rotation := 0, angularVelocity := 0
    guid := 9, typeName := "ball" }

/-! ## Portal geometry lifecycle (`portal.js`: createPortal / destroyPortal / reDraw) -/

namespace PortalGeom

/-- A mesh in the portal's group: whether it is the point light (the
one child `destroyPortal` keeps) and the body handles stored in its
`userData.physicsBodies`. -/
structure PMesh where
  isPointLight : Bool
  physicsBodies : List Nat
deriving DecidableEq

/-- The state relevant to body hygiene: the handles currently
registered with the physics engine, a fresh-handle counter, the
portal group's children, and whether `this.pointLight` is set. -/
structure PortalWorld where
  physics : List Nat
  nextBody : Nat
  children : List PMesh
  pointLightSet : Bool
deriving DecidableEq

/-- Modelled from the spec: the physics engine's `removeBody(handle)`
(the engine is not under `src/`): deregister the handle. -/
def removeBody (phys : List Nat) (b : Nat) : List Nat :=
  phys.filter (fun x => x != b)

/-- Modelled from the spec: the physics engine's
`createCircle`/`createBox` (not under `src/`): register a fresh body
and return its handle. -/
def newBody (w : PortalWorld) : PortalWorld × Nat :=
  ({ w with physics := w.physics ++ [w.nextBody], nextBody := w.nextBody + 1 },
   w.nextBody)

/-- `createTorus`: one mesh carrying two circle bodies. -/
def createTorus (w : PortalWorld) : PortalWorld :=
  let r1 := newBody w
  let r2 := newBody r1.1
  { r2.1 with
      children := r2.1.children ++
        [{ isPointLight := false, physicsBodies := [r1.2, r2.2] }] }

/-- `createPointLight`: adds the light once; a no-op when
`this.pointLight` is already set. -/
def createPointLight (w : PortalWorld) : PortalWorld :=
  if w.pointLightSet then w
  else
    { w with
        children := w.children ++ [{ isPointLight := true, physicsBodies := [] }]
        pointLightSet := true }

/-- `createMist`: one mesh, no physics bodies. -/
def createMist (w : PortalWorld) : PortalWorld :=
  { w with children := w.children ++ [{ isPointLight := false, physicsBodies := [] }] }

/-- `createTube`: one mesh carrying two box bodies (the tube walls). -/
def createTube (w : PortalWorld) : PortalWorld :=
  let r1 := newBody w
  let r2 := newBody r1.1
  { r2.1 with
      children := r2.1.children ++
        [{ isPointLight := false, physicsBodies := [r1.2, r2.2] }] }

/-- `createBack`: one mesh carrying two box bodies (the back plate and
the collision body inside the tube that carries the `onCollision`
hook). -/
def createBack (w : PortalWorld) : PortalWorld :=
  let r1 := newBody w
  let r2 := newBody r1.1
  { r2.1 with
      children := r2.1.children ++
        [{ isPointLight := false, physicsBodies := [r1.2, r2.2] }] }

/-- `createScrewHeads`: two pivot groups added to the portal group, no
physics bodies. -/
def createScrewHeads (w : PortalWorld) : PortalWorld :=
  { w with
      children := w.children ++
        [{ isPointLight := false, physicsBodies := [] },
         { isPointLight := false, physicsBodies := [] }] }

/-- `createPortal`: create all parts in source order. -/
def createPortal (w : PortalWorld) : PortalWorld :=
  createScrewHeads (createBack (createTube (createMist (createPointLight
    (createTorus w)))))

/-- `destroyPortal`: over a snapshot of the group children, remove
each mesh's physics bodies from the engine and clear its list, then
remove every mesh except the point light from the group. -/
def destroyPortal (w : PortalWorld) : PortalWorld :=
  { w with
      physics := w.children.foldl
        (fun p m => m.physicsBodies.foldl removeBody p) w.physics
      children := (w.children.filter (fun m => m.isPointLight)).map
        (fun m => { m with physicsBodies := [] }) }

/-- `reDraw`: `destroyPortal` then `createPortal`. -/
def reDraw (w : PortalWorld) : PortalWorld := createPortal (destroyPortal w)

/-- The world before portal construction. -/
def emptyWorld : PortalWorld :=
  { physics := [], nextBody := 0, children := [], pointLightSet := false }

/-- All body handles owned by the current mesh set. -/
def ownedBodies (w : PortalWorld) : List Nat :=
  w.children.flatMap (fun m => m.physicsBodies)

/-- Body hygiene invariant: the engine registers exactly the handles
the current mesh set owns, without duplicates, and all handles are
below the freshness counter. -/
def Inv (w : PortalWorld) : Prop :=
  w.physics = ownedBodies w ∧ w.physics.Nodup ∧ ∀ b ∈ w.physics, b < w.nextBody

end PortalGeom

/-- A world with one mesh owning body 5, plus an unrelated body 9. -/
def c9world : PortalGeom.PortalWorld :=
  { physics := [5, 9], nextBody := 10
    children := [{ isPointLight := false, physicsBodies := [5] }]
    pointLightSet := true }

/-! ## Helper lemmas for the screw-head angle arithmetic -/

namespace Screw

/-- The JS remainder is the identity on dividends smaller than the
modulus in absolute value. -/
theorem jsRem_eq_self {x m : ℝ} (hm : 0 < m) (h1 : -m < x) (h2 : x < m) :
    jsRem x m = x := by
  have hq1 : (-1 : ℝ) < x / m := by
    rw [neg_lt, ← neg_div, div_lt_one hm]; linarith
  have hq2 : x / m < 1 := by rw [div_lt_one hm]; exact h2
  have htr : jsTrunc (x / m) = 0 := by
    unfold jsTrunc
    rcases le_or_lt 0 (x / m) with hq | hq
    · rw [if_pos hq, Int.floor_eq_zero_iff]
      exact Set.mem_Ico.mpr ⟨hq, hq2⟩
    · rw [if_neg (not_le.mpr hq), Int.ceil_eq_zero_iff]
      exact Set.mem_Ioc.mpr ⟨hq1, le_of_lt hq⟩
  rw [jsRem, htr]
  push_cast
  ring

/-- On angle differences of magnitude at most `π`, the wrapped angular
difference is the plain absolute difference. -/
theorem wrappedAngularDiff_eq_abs {a b : ℝ} (h : |a - b| ≤ Real.pi) :
    wrappedAngularDiff a b = |a - b| := by
  have hpi := Real.pi_pos
  have hm : (0 : ℝ) < 2 * Real.pi := by linarith
  rcases abs_le.mp h with ⟨hge, hle⟩
  rcases le_or_lt 0 (a - b) with hy | hy
  · have habs : |a - b| = a - b := abs_of_nonneg hy
    have hfl : ⌊(a - b) / (2 * Real.pi)⌋ = 0 := by
      rw [Int.floor_eq_zero_iff]
      refine Set.mem_Ico.mpr ⟨div_nonneg hy (le_of_lt hm), ?_⟩
      rw [div_lt_one hm]; linarith
    have hpm : posMod (a - b) (2 * Real.pi) = a - b := by
      rw [posMod, hfl]; push_cast; ring
    rw [wrappedAngularDiff, hpm, habs, min_eq_left (by linarith)]
  · have habs : |a - b| = -(a - b) := abs_of_neg hy
    have hfl : ⌊(a - b) / (2 * Real.pi)⌋ = -1 := by
      rw [Int.floor_eq_iff]
      constructor
      · push_cast
        rw [le_div_iff₀ hm]; linarith
      · push_cast
        calc (a - b) / (2 * Real.pi) < 0 := div_neg_of_neg_of_pos hy hm
          _ ≤ -1 + 1 := by norm_num
    have hpm : posMod (a - b) (2 * Real.pi) = a - b + 2 * Real.pi := by
      rw [posMod, hfl]; push_cast; ring
    rw [wrappedAngularDiff, hpm, habs, min_eq_right (by linarith)]
    ring

end Screw

/-! ## Theorems for the portal-transit claims -/

/-- C1: for every outbound transit the envelope velocity is the body's
world velocity rotated by minus the sending portal's rotation, and for
every inbound message the spawn velocity is the envelope velocity
rotated by the receiving portal's rotation plus `π`; in particular, a
body with world velocity `(1,0)` crossing portal A (rotation `0`)
yields envelope velocity `(1,0)`, and receiving that very envelope at
portal B (rotation `π`) yields spawn velocity `(1,0)`. -/
theorem c1_frame_transform_round_trip :
    (∀ (p : Portal.PortalNet) (o : Portal.TransitObj) (b : Portal.BodyState),
      ((Portal.sendObjectToBroker p o b).2.vx, (Portal.sendObjectToBroker p o b).2.vy) =
        rotatePoint 0 0 b.vx b.vy (-p.rotation)) ∧
    (∀ (p : Portal.PortalNet) (env : Portal.Envelope),
      (((Portal.onMessageCfg p env).1.vx, (Portal.onMessageCfg p env).1.vy) =
        rotatePoint 0 0 env.vx env.vy (p.rotation + Real.pi))) ∧
    (((Portal.sendObjectToBroker portalA plainObj unitBody).2.vx,
      (Portal.sendObjectToBroker portalA plainObj unitBody).2.vy) = ((1 : ℝ), (0 : ℝ))) ∧
    (((Portal.onMessageCfg portalB (Portal.sendObjectToBroker portalA plainObj unitBody).2).1.vx,
      (Portal.onMessageCfg portalB (Portal.sendObjectToBroker portalA plainObj unitBody).2).1.vy) =
        ((1 : ℝ), (0 : ℝ))) := by
  refine ⟨fun p o b => rfl, fun p env => rfl, ?_, ?_⟩
  · simp [Portal.sendObjectToBroker, rotatePoint, portalA, unitBody]
  · have h2 : Real.pi + Real.pi = 2 * Real.pi := by ring
    simp [Portal.sendObjectToBroker, Portal.onMessageCfg, rotatePoint, portalA, portalB,
      unitBody, h2, Real.cos_two_pi, Real.sin_two_pi]

/-- C2: a collision on the portal's back body publishes an envelope
exactly when the portal is connected, the colliding object is
non-static, and the object is not cooling down from this same portal;
in particular the cooling object colliding with its own portal P
publishes nothing, while colliding with a different portal Q publishes
exactly once. -/
theorem c2_collision_guard :
    (∀ (p : Portal.PortalNet) (o : Portal.TransitObj) (b : Portal.BodyState),
      Portal.countPub (Portal.onCollision p o b) =
        if p.connected && !o.static && !(o.cooling && (o.fromPortal == some p.pid))
        then 1 else 0) ∧
    Portal.countPub (Portal.onCollision portalP coolingObj unitBody) = 0 ∧
    Portal.countPub (Portal.onCollision portalQ coolingObj unitBody) = 1 := by
  refine ⟨fun p o b => ?_, rfl, rfl⟩
  cases hc : p.connected <;> cases hs : o.static <;> cases hcool : o.cooling <;>
    cases hfp : (o.fromPortal == some p.pid) <;>
      simp [Portal.onCollision, Portal.countPub, hc, hs, hcool, hfp]

/-- C4 counterexample: a portal whose connection handle was dropped by
`disconnect()` (and whose `enabled` flag is false) still processes an
inbound message: `onMessage` performs no enabled/connection check and
the world registry is asked to spawn, returning an object — the claim
that the handler discards such late messages without spawning is false
at this input. -/
theorem c4_counterexample :
    portalDropped.enabled = false ∧ portalDropped.brokerConnection = none ∧
    (Portal.onMessage portalDropped sampleEnv (fun _ => some 42)).attemptedSpawn = true ∧
    (Portal.onMessage portalDropped sampleEnv (fun _ => some 42)).spawned = some 42 := by
  exact ⟨rfl, rfl, rfl, rfl⟩

/-- C4 amended: `disconnect` does drop the connection handle
synchronously, but the message handler performs no enabled/connection
check at all: for every portal state it attempts the spawn, and whether
an object is spawned depends only on the world registry's answer, never
on the portal's `enabled`/connection state. -/
theorem c4_no_late_message_check :
    (∀ p : Portal.PortalNet, ((Portal.disconnect p).1).brokerConnection = none) ∧
    (∀ (p : Portal.PortalNet) (env : Portal.Envelope)
      (f : Portal.Envelope × ℝ × ℝ → Option Nat),
      (Portal.onMessage p env f).attemptedSpawn = true ∧
      (Portal.onMessage p env f).spawned = f (Portal.onMessageCfg p env)) := by
  constructor
  · intro p
    cases h : p.brokerConnection <;> simp [Portal.disconnect, h]
  · intro p env f
    cases h : f (Portal.onMessageCfg p env) <;> simp [Portal.onMessage, h]

/-- C5 counterexample: the claim's criterion — correction `π` exactly
when the wrapped angular difference between bearing and rotation
exceeds `π/2` — is false at rotation `2π - 1/10`, bearing `0`: the
wrapped angular difference is `1/10 ≤ π/2`, so the claim predicts
correction `0`, but the code's `abs((rotation - angle) % 2π)` equals
`2π - 1/10 > π/2`, so the recorded correction is `π`. -/
theorem c5_counterexample :
    Screw.rotationAdjustment (2 * Real.pi - 1/10) 0 = Real.pi ∧
    Screw.claimCorrection (2 * Real.pi - 1/10) 0 = 0 ∧
    Screw.rotationAdjustment (2 * Real.pi - 1/10) 0 ≠
      Screw.claimCorrection (2 * Real.pi - 1/10) 0 := by
  have hpi3 := Real.pi_gt_three
  have hpi4 := Real.pi_lt_d2
  have hm : (0 : ℝ) < 2 * Real.pi := by linarith
  have h1 : Screw.rotationAdjustment (2 * Real.pi - 1/10) 0 = Real.pi := by
    rw [Screw.rotationAdjustment, sub_zero,
      Screw.jsRem_eq_self hm (by linarith) (by linarith),
      abs_of_nonneg (by linarith)]
    rw [if_pos (by linarith)]
  have h2 : Screw.claimCorrection (2 * Real.pi - 1/10) 0 = 0 := by
    rw [Screw.claimCorrection]
    have hfl : ⌊(0 - (2 * Real.pi - 1/10)) / (2 * Real.pi)⌋ = -1 := by
      rw [Int.floor_eq_iff]
      constructor
      · push_cast
        rw [le_div_iff₀ hm]; linarith
      · push_cast
        calc (0 - (2 * Real.pi - 1/10)) / (2 * Real.pi) < 0 :=
              div_neg_of_neg_of_pos (by linarith) hm
          _ ≤ -1 + 1 := by norm_num
    have hpm : Screw.posMod (0 - (2 * Real.pi - 1/10)) (2 * Real.pi) = 1/10 := by
      rw [Screw.posMod, hfl]; push_cast; ring
    rw [Screw.wrappedAngularDiff, hpm, min_eq_left (by linarith)]
    rw [if_neg (by push_neg; linarith)]
  exact ⟨h1, h2, by rw [h1, h2]; exact Real.pi_ne_zero⟩

/-- C5 amended: the recorded correction is `π` exactly when the
absolute value of the JavaScript remainder `(rotation - bearing) % 2π`
(a value in `(-2π, 2π)`) exceeds `π/2`; this coincides with the claim's
wrapped-angular-difference criterion whenever `|rotation - bearing| ≤ π`
(but not in general).  The two concrete instances hold: pivot `(0,0)`,
rotation `0`, pointer at `(0,-1)` gives bearing `π` and correction `π`;
a bearing of `0.2` gives correction `0`. -/
theorem c5_pivot_flip_correction :
    Screw.bearingOf (0, 0) (0, -1) = Real.pi ∧
    Screw.onDownScrewHead 0 (0, 0) (0, -1) = Real.pi ∧
    Screw.rotationAdjustment 0 (1/5) = 0 ∧
    (∀ rotation bearing : ℝ, |rotation - bearing| ≤ Real.pi →
      Screw.rotationAdjustment rotation bearing =
        Screw.claimCorrection rotation bearing) := by
  have hpi3 := Real.pi_gt_three
  have hpi := Real.pi_pos
  have hm : (0 : ℝ) < 2 * Real.pi := by linarith
  have hbear : Screw.bearingOf (0, 0) (0, -1) = Real.pi := by
    rw [Screw.bearingOf, Screw.atan2]
    have hI : (⟨(0 : ℝ) - 0, (0 : ℝ) - (-1)⟩ : ℂ) = Complex.I := by
      simp [Complex.ext_iff, Complex.I]
    rw [hI, Complex.arg_I]
    ring
  have hadj0pi : Screw.rotationAdjustment 0 Real.pi = Real.pi := by
    rw [Screw.rotationAdjustment, zero_sub,
      Screw.jsRem_eq_self hm (by linarith) (by linarith),
      abs_neg, abs_of_nonneg (by linarith)]
    rw [if_pos (by linarith)]
  refine ⟨hbear, ?_, ?_, ?_⟩
  · rw [Screw.onDownScrewHead, hbear]
    exact hadj0pi
  · rw [Screw.rotationAdjustment, zero_sub,
      Screw.jsRem_eq_self hm (by linarith) (by linarith),
      abs_neg, abs_of_nonneg (by norm_num)]
    rw [if_neg (by push_neg; linarith)]
  · intro rotation bearing h
    rcases abs_le.mp h with ⟨hge, hle⟩
    rw [Screw.rotationAdjustment,
      Screw.jsRem_eq_self hm (by linarith) (by linarith),
      Screw.claimCorrection,
      Screw.wrappedAngularDiff_eq_abs (by rwa [abs_sub_comm]),
      abs_sub_comm bearing rotation]

/-- C5 witness: the amended equivalence applied at rotation `0`,
bearing `1/5`, whose angular difference is within `π`. -/
theorem c5_witness :
    |(0 : ℝ) - 1/5| ≤ Real.pi ∧
    Screw.rotationAdjustment 0 (1/5) = Screw.claimCorrection 0 (1/5) := by
  have h : |(0 : ℝ) - 1/5| ≤ Real.pi := by
    rw [abs_of_nonpos (by norm_num)]
    have := Real.pi_gt_three
    linarith
  exact ⟨h, c5_pivot_flip_correction.2.2.2 0 (1/5) h⟩

/-! ## Helper lemmas about the interaction machine -/

namespace UIS

theorem countUnsel_append (o : Nat) (l1 l2 : List TE) :
    countUnsel o (l1 ++ l2) = countUnsel o l1 + countUnsel o l2 := by
  induction l1 with
  | nil => simp [countUnsel]
  | cons h t ih => cases h <;> simp [countUnsel, ih, Nat.add_assoc]

theorem countSel_append (o : Nat) (l1 l2 : List TE) :
    countSel o (l1 ++ l2) = countSel o l1 + countSel o l2 := by
  induction l1 with
  | nil => simp [countSel]
  | cons h t ih => cases h <;> simp [countSel, ih, Nat.add_assoc]

theorem sumDx_append (l1 l2 : List TE) :
    sumDx (l1 ++ l2) = sumDx l1 + sumDx l2 := by
  induction l1 with
  | nil => simp [sumDx]
  | cons h t ih => cases h <;> simp [sumDx, ih] <;> ring

theorem sumDy_append (l1 l2 : List TE) :
    sumDy (l1 ++ l2) = sumDy l1 + sumDy l2 := by
  induction l1 with
  | nil => simp [sumDy]
  | cons h t ih => cases h <;> simp [sumDy, ih] <;> ring

/-- `run` distributes over list append. -/
theorem run_append (s : SState) (l1 l2 : List Ev) :
    run s (l1 ++ l2) =
      ((run (run s l1).1 l2).1, (run s l1).2 ++ (run (run s l1).1 l2).2) := by
  induction l1 generalizing s with
  | nil => simp [run]
  | cons e t ih => simp [run, ih]

/-- `checkRangeUpd` only ever touches `persistentSelectable`. -/
theorem checkRangeUpd_frame (s : SState) (pos : Pos) (info : UisInfo) :
    (checkRangeUpd s pos info).registry = s.registry ∧
    (checkRangeUpd s pos info).material = s.material ∧
    (checkRangeUpd s pos info).selectAllowedRange = s.selectAllowedRange ∧
    (checkRangeUpd s pos info).selectedObject = s.selectedObject ∧
    (checkRangeUpd s pos info).isDragging = s.isDragging ∧
    (checkRangeUpd s pos info).persistentSelected = s.persistentSelected ∧
    (checkRangeUpd s pos info).posAtMouseDown = s.posAtMouseDown ∧
    (checkRangeUpd s pos info).prevPos = s.prevPos := by
  unfold checkRangeUpd
  split_ifs <;> simp

/-- `onMove` never touches the registry, the materials, the selection
slot, the dragging flag, the persistent-selected flag, the anchor
position or the range, and it emits only `moveCb` effects. -/
theorem onMove_frame (s : SState) (pos : Pos) :
    (onMove s pos).1.registry = s.registry ∧
    (onMove s pos).1.material = s.material ∧
    (onMove s pos).1.selectAllowedRange = s.selectAllowedRange ∧
    (onMove s pos).1.selectedObject = s.selectedObject ∧
    (onMove s pos).1.isDragging = s.isDragging ∧
    (onMove s pos).1.persistentSelected = s.persistentSelected ∧
    (onMove s pos).1.posAtMouseDown = s.posAtMouseDown ∧
    (∀ k, countUnsel k (onMove s pos).2 = 0) ∧
    (∀ k, countSel k (onMove s pos).2 = 0) := by
  unfold onMove
  cases hd : s.isDragging with
  | false => simp [hd, countUnsel, countSel]
  | true =>
    cases hso : s.selectedObject with
    | none => simp [hso, hd, countUnsel, countSel]
    | some o =>
      cases hr : s.registry o with
      | none => simp [hr, hso, hd, countUnsel, countSel]
      | some info =>
        obtain ⟨f1, f2, f3, f4, f5, f6, f7, f8⟩ := checkRangeUpd_frame s pos info
        cases hm : info.onMove <;>
          simp [hm, hr, hso, hd, f1, f2, f3, f4, f5, f6, f7, countUnsel, countSel]

/-- `unselectObject` never touches the registry, the dragging flag,
`persistentSelectable`, the anchor/previous positions or the range, and
emits no `selectedCb`. -/
theorem unselectObject_frame (s : SState) (arg : Option Nat) :
    (unselectObject s arg).1.registry = s.registry ∧
    (unselectObject s arg).1.isDragging = s.isDragging ∧
    (unselectObject s arg).1.persistentSelectable = s.persistentSelectable ∧
    (unselectObject s arg).1.posAtMouseDown = s.posAtMouseDown ∧
    (unselectObject s arg).1.prevPos = s.prevPos ∧
    (unselectObject s arg).1.selectAllowedRange = s.selectAllowedRange ∧
    (∀ k, countSel k (unselectObject s arg).2 = 0) := by
  unfold unselectObject
  cases arg with
  | none =>
    cases hso : s.selectedObject with
    | none => simp [hso, countSel]
    | some o =>
      cases hr : s.registry o with
      | none => simp [hso, hr, countSel]
      | some info =>
        cases hm : info.unselectedMaterial <;> cases hu : info.onUnselected <;>
          simp [hso, hr, hm, hu, countSel]
  | some o =>
    cases hr : s.registry o with
    | none => simp [hr, countSel]
    | some info =>
      cases hm : info.unselectedMaterial <;> cases hu : info.onUnselected <;>
        simp [hr, hm, hu, countSel]

/-- Behaviour of `unselectObject` on a registered explicit argument. -/
theorem unselectObject_spec (s : SState) (o : Nat) (info : UisInfo)
    (hreg : s.registry o = some info) :
    (unselectObject s (some o)).1.persistentSelected = false ∧
    (unselectObject s (some o)).1.selectedObject = none ∧
    countUnsel o (unselectObject s (some o)).2 =
      (if info.onUnselected then 1 else 0) ∧
    (∀ k, k ≠ o → countUnsel k (unselectObject s (some o)).2 = 0) ∧
    TE.clearForm ∈ (unselectObject s (some o)).2 ∧
    (∀ k, k ≠ o → (unselectObject s (some o)).1.material k = s.material k) := by
  refine ⟨?_, ?_, ?_, ?_, ?_, ?_⟩
  · unfold unselectObject
    cases hm : info.unselectedMaterial <;> simp [hreg, hm]
  · unfold unselectObject
    cases hm : info.unselectedMaterial <;> simp [hreg, hm]
  · unfold unselectObject
    cases hm : info.unselectedMaterial <;> cases hu : info.onUnselected <;>
      simp [hreg, hm, hu, countUnsel]
  · intro k hk
    unfold unselectObject
    cases hm : info.unselectedMaterial <;> cases hu : info.onUnselected <;>
      simp [hreg, hm, hu, countUnsel, Ne.symm hk]
  · unfold unselectObject
    cases hm : info.unselectedMaterial <;> cases hu : info.onUnselected <;>
      simp [hreg, hm, hu]
  · intro k hk
    unfold unselectObject
    cases hm : info.unselectedMaterial <;> simp [hreg, hm, hk]

/-- Behaviour of `selectObject` on a registered object. -/
theorem selectObject_spec (s : SState) (o : Nat) (info : UisInfo)
    (hreg : s.registry o = some info) :
    (selectObject s o).1.selectedObject = some o ∧
    (selectObject s o).1.persistentSelected = true ∧
    (selectObject s o).1.isDragging = s.isDragging ∧
    (∀ k, countUnsel k (selectObject s o).2 = 0) := by
  refine ⟨?_, ?_, ?_, ?_⟩ <;>
  · unfold selectObject
    cases hsm : info.selectedMaterial <;> cases hos : info.onSelected <;>
      cases hcf : info.configForm <;> cases hdel : info.deleteable <;>
        simp [hreg, hsm, hos, hcf, hdel, countUnsel]

/-- Behaviour of `onDown` on a hit whose object is registered:
state fields after the handler, independent of whether a previous
persistent selection was released first. -/
theorem onDown_spec (s : SState) (o : Nat) (p : Pos) (info : UisInfo)
    (hreg : s.registry o = some info) :
    (onDown s (some (o, p))).1.selectedObject = some o ∧
    (onDown s (some (o, p))).1.persistentSelectable = info.selectable ∧
    (onDown s (some (o, p))).1.posAtMouseDown = some p ∧
    (onDown s (some (o, p))).1.prevPos = some p ∧
    (onDown s (some (o, p))).1.registry = s.registry ∧
    (onDown s (some (o, p))).1.selectAllowedRange = s.selectAllowedRange ∧
    (onDown s (some (o, p))).1.isDragging =
      (if info.moveable then true else s.isDragging) ∧
    (∀ k, countSel k (onDown s (some (o, p))).2 = 0) := by
  simp only [onDown]
  generalize hR : (if (s.persistentSelected && !(s.selectedObject == some o)) = true
      then unselectObject s s.selectedObject else (s, [])) = r1
  have hfr : r1.1.registry = s.registry ∧ r1.1.isDragging = s.isDragging ∧
      r1.1.selectAllowedRange = s.selectAllowedRange ∧ ∀ k, countSel k r1.2 = 0 := by
    obtain ⟨g1, g2, g3, g4, g5, g6, g7⟩ := unselectObject_frame s s.selectedObject
    rw [← hR]
    split_ifs
    · exact ⟨g1, g2, g6, g7⟩
    · exact ⟨rfl, rfl, rfl, fun k => rfl⟩
  obtain ⟨f1, f2, f3, f4⟩ := hfr
  cases hmv : info.moveable <;> cases hod : info.onDown <;>
    simp [f1, f2, f3, f4, hreg, hmv, hod, countSel, countSel_append]

/-- When a different object is pointer-downed while a registered
previous selection is persistent, `onDown` releases the previous
selection immediately: its `onUnselected` fires exactly once during
the down handler and the persistent-selected flag is cleared. -/
theorem onDown_releases_prior (s : SState) (o f : Nat) (p : Pos) (finfo : UisInfo)
    (hps : s.persistentSelected = true) (hso : s.selectedObject = some f)
    (hne : f ≠ o) (hregf : s.registry f = some finfo)
    (hcb : finfo.onUnselected = true) :
    countUnsel f (onDown s (some (o, p))).2 = 1 ∧
    (onDown s (some (o, p))).1.persistentSelected = false := by
  have hbeq : (s.selectedObject == some o) = false := by
    rw [hso]
    exact beq_eq_false_iff_ne.mpr (by simpa using hne)
  have hcondB : (s.persistentSelected && !(s.selectedObject == some o)) = true := by
    rw [hps, hbeq]; rfl
  obtain ⟨u1, u2, u3, u4, u5, u6⟩ := unselectObject_spec s f finfo hregf
  obtain ⟨g1, g2, g3, g4, g5, g6, g7⟩ := unselectObject_frame s (some f)
  simp only [onDown]
  rw [if_pos hcondB, hso]
  cases hro : s.registry o with
  | none => simp [g1, hro, u1, u3, hcb]
  | some info2 =>
    cases hod : info2.onDown <;> cases hmv : info2.moveable <;>
      simp [g1, hro, hod, hmv, u1, u3, hcb, countUnsel, countUnsel_append]

/-- `onUp` commits the selection when the armed object is selectable
and still persistent-selectable. -/
theorem onUp_commit (s : SState) (pos : Pos) (o : Nat) (info : UisInfo)
    (hso : s.selectedObject = some o) (hreg : s.registry o = some info)
    (hsel : info.selectable = true) (hps : s.persistentSelectable = true) :
    (onUp s pos).1.selectedObject = some o ∧
    (onUp s pos).1.persistentSelected = true ∧
    (∀ k, countUnsel k (onUp s pos).2 = 0) := by
  obtain ⟨c1, c2, c3, c4⟩ := selectObject_spec s o info hreg
  unfold onUp
  cases ht : info.onUp <;>
    simp [hso, hreg, hsel, hps, ht, c1, c2, c4, countUnsel, countUnsel_append]

/-- `onUp` clears the slot and the persistent flag when the commit
condition fails. -/
theorem onUp_clear (s : SState) (pos : Pos) (o : Nat) (info : UisInfo)
    (hso : s.selectedObject = some o) (hreg : s.registry o = some info)
    (hc : (info.selectable && s.persistentSelectable) = false) :
    (onUp s pos).1.selectedObject = none ∧
    (onUp s pos).1.persistentSelected = false ∧
    (∀ k, countUnsel k (onUp s pos).2 = 0) := by
  unfold onUp
  cases ht : info.onUp <;> simp [hso, hreg, hc, ht, countUnsel]

/-- The range check is the identity when the distance does not exceed
the allowed range. -/
theorem checkRangeUpd_le (s : SState) (pos : Pos) (info : UisInfo)
    (h : ¬ distFrom (s.posAtMouseDown.getD (0, 0)) pos > s.selectAllowedRange) :
    checkRangeUpd s pos info = s := by
  unfold checkRangeUpd
  by_cases h1 : info.selectable = true
  · rw [if_pos h1, if_neg h]
  · rw [if_neg h1]

/-- The range check clears `persistentSelectable` when the object is
selectable and the distance exceeds the allowed range. -/
theorem checkRangeUpd_far (s : SState) (pos : Pos) (info : UisInfo)
    (hsel : info.selectable = true)
    (h : distFrom (s.posAtMouseDown.getD (0, 0)) pos > s.selectAllowedRange) :
    (checkRangeUpd s pos info).persistentSelectable = false := by
  unfold checkRangeUpd
  rw [if_pos hsel, if_pos h]

/-- The range check never sets `persistentSelectable` back to true. -/
theorem checkRangeUpd_false (s : SState) (pos : Pos) (info : UisInfo)
    (h : s.persistentSelectable = false) :
    (checkRangeUpd s pos info).persistentSelectable = false := by
  unfold checkRangeUpd
  by_cases h1 : info.selectable = true
  · rw [if_pos h1]
    by_cases h2 : distFrom (s.posAtMouseDown.getD (0, 0)) pos > s.selectAllowedRange
    · rw [if_pos h2]
    · rw [if_neg h2]; exact h
  · rw [if_neg h1]; exact h

/-- A move within the allowed range leaves `persistentSelectable`
unchanged. -/
theorem onMove_ps_le (s : SState) (pos : Pos)
    (h : ¬ distFrom (s.posAtMouseDown.getD (0, 0)) pos > s.selectAllowedRange) :
    (onMove s pos).1.persistentSelectable = s.persistentSelectable := by
  unfold onMove
  cases hd : s.isDragging with
  | false => simp [hd]
  | true =>
    cases hso : s.selectedObject with
    | none => simp [hso, hd]
    | some o =>
      cases hr : s.registry o with
      | none => simp [hr, hso, hd]
      | some info =>
        have hcr := checkRangeUpd_le s pos info h
        cases hm : info.onMove <;> simp [hr, hso, hd, hm, hcr]

/-- Once `persistentSelectable` is false, a move keeps it false. -/
theorem onMove_ps_false (s : SState) (pos : Pos)
    (h : s.persistentSelectable = false) :
    (onMove s pos).1.persistentSelectable = false := by
  unfold onMove
  cases hd : s.isDragging with
  | false => simp [hd, h]
  | true =>
    cases hso : s.selectedObject with
    | none => simp [hso, hd, h]
    | some o =>
      cases hr : s.registry o with
      | none => simp [hr, hso, hd, h]
      | some info =>
        have hcr := checkRangeUpd_false s pos info h
        cases hm : info.onMove <;> simp [hr, hso, hd, hm, hcr]

/-- A dragging move on a selectable object beyond the allowed range
clears `persistentSelectable`. -/
theorem onMove_ps_far (s : SState) (pos : Pos) (o : Nat) (info : UisInfo)
    (hd : s.isDragging = true) (hso : s.selectedObject = some o)
    (hreg : s.registry o = some info) (hsel : info.selectable = true)
    (h : distFrom (s.posAtMouseDown.getD (0, 0)) pos > s.selectAllowedRange) :
    (onMove s pos).1.persistentSelectable = false := by
  have hcr := checkRangeUpd_far s pos info hsel h
  unfold onMove
  cases hm : info.onMove <;> simp [hd, hso, hreg, hm, hcr]

/-- The delta emitted by a dragging move with an `onMove` callback, and
the advance of `prevPos`. -/
theorem onMove_trace (s : SState) (pos : Pos) (o : Nat) (info : UisInfo)
    (prev : Pos)
    (hd : s.isDragging = true) (hso : s.selectedObject = some o)
    (hreg : s.registry o = some info) (hm : info.onMove = true)
    (hprev : s.prevPos = some prev) :
    (onMove s pos).2 = [TE.moveCb o (pos.1 - prev.1) (pos.2 - prev.2)] ∧
    (onMove s pos).1.prevPos = some pos := by
  obtain ⟨f1, f2, f3, f4, f5, f6, f7, f8⟩ := checkRangeUpd_frame s pos info
  unfold onMove
  simp [hd, hso, hreg, hm, f8, hprev]

/-- Processing a list of move events preserves everything `onMove`
preserves. -/
theorem run_moves_frame (moves : List Pos) : ∀ s : SState,
    (run s (moves.map Ev.move)).1.registry = s.registry ∧
    (run s (moves.map Ev.move)).1.material = s.material ∧
    (run s (moves.map Ev.move)).1.selectAllowedRange = s.selectAllowedRange ∧
    (run s (moves.map Ev.move)).1.selectedObject = s.selectedObject ∧
    (run s (moves.map Ev.move)).1.isDragging = s.isDragging ∧
    (run s (moves.map Ev.move)).1.persistentSelected = s.persistentSelected ∧
    (run s (moves.map Ev.move)).1.posAtMouseDown = s.posAtMouseDown ∧
    (∀ k, countUnsel k (run s (moves.map Ev.move)).2 = 0) ∧
    (∀ k, countSel k (run s (moves.map Ev.move)).2 = 0) := by
  induction moves with
  | nil => intro s; simp [run, countUnsel, countSel]
  | cons q t ih =>
    intro s
    obtain ⟨m1, m2, m3, m4, m5, m6, m7, m8, m9⟩ := onMove_frame s q
    obtain ⟨i1, i2, i3, i4, i5, i6, i7, i8, i9⟩ := ih (onMove s q).1
    refine ⟨?_, ?_, ?_, ?_, ?_, ?_, ?_, ?_, ?_⟩ <;>
      simp only [List.map_cons, run, step] <;>
      first
        | exact i1.trans m1
        | exact i2.trans m2
        | exact i3.trans m3
        | exact i4.trans m4
        | exact i5.trans m5
        | exact i6.trans m6
        | exact i7.trans m7
        | (intro k; rw [countUnsel_append, m8 k, i8 k])
        | (intro k; rw [countSel_append, m9 k, i9 k])

/-- Processing moves all within range preserves
`persistentSelectable`. -/
theorem run_moves_ps_le (moves : List Pos) : ∀ (s : SState) (p0 : Pos) (R : ℝ),
    s.posAtMouseDown = some p0 → s.selectAllowedRange = R →
    (∀ q ∈ moves, ¬ distFrom p0 q > R) →
    (run s (moves.map Ev.move)).1.persistentSelectable = s.persistentSelectable := by
  induction moves with
  | nil => intro s p0 R _ _ _; simp [run]
  | cons q t ih =>
    intro s p0 R hpad hrange hall
    obtain ⟨m1, m2, m3, m4, m5, m6, m7, m8, m9⟩ := onMove_frame s q
    have hstep : (onMove s q).1.persistentSelectable = s.persistentSelectable := by
      apply onMove_ps_le
      rw [hpad, hrange]
      simpa using hall q (List.mem_cons_self q t)
    have iht := ih (onMove s q).1 p0 R (m7.trans hpad) (m3.trans hrange)
      (fun r hr => hall r (List.mem_cons_of_mem q hr))
    simp only [List.map_cons, run, step]
    exact iht.trans hstep

/-- Once `persistentSelectable` is false it stays false across any
list of moves. -/
theorem run_moves_ps_false (moves : List Pos) : ∀ s : SState,
    s.persistentSelectable = false →
    (run s (moves.map Ev.move)).1.persistentSelectable = false := by
  induction moves with
  | nil => intro s h; simpa [run] using h
  | cons q t ih =>
    intro s h
    simp only [List.map_cons, run, step]
    exact ih (onMove s q).1 (onMove_ps_false s q h)

/-- Telescoping: over a dragging session on an object whose record has
an `onMove` callback, the summed deltas of a list of moves equal the
last move position minus the starting previous position. -/
theorem run_moves_deltas (moves : List Pos) :
    ∀ (s : SState) (o : Nat) (info : UisInfo) (prev : Pos),
    s.isDragging = true → s.selectedObject = some o →
    s.registry o = some info → info.onMove = true → s.prevPos = some prev →
    sumDx (run s (moves.map Ev.move)).2 = (moves.getLastD prev).1 - prev.1 ∧
    sumDy (run s (moves.map Ev.move)).2 = (moves.getLastD prev).2 - prev.2 := by
  induction moves with
  | nil => intro s o info prev _ _ _ _ _; simp [run, sumDx, sumDy]
  | cons q t ih =>
    intro s o info prev hd hso hreg hm hprev
    obtain ⟨htr, hpp⟩ := onMove_trace s q o info prev hd hso hreg hm hprev
    obtain ⟨m1, m2, m3, m4, m5, m6, m7, m8, m9⟩ := onMove_frame s q
    have iht := ih (onMove s q).1 o info q (m5.trans hd) (m4.trans hso)
      (by rw [m1]; exact hreg) hm hpp
    simp only [List.map_cons, run, step]
    rw [sumDx_append, sumDy_append, htr, iht.1, iht.2, List.getLastD_cons]
    constructor <;> simp [sumDx, sumDy] <;> ring

/-- `selectObject` emits no move deltas. -/
theorem selectObject_sumDeltas (s : SState) (o : Nat) :
    sumDx (selectObject s o).2 = 0 ∧ sumDy (selectObject s o).2 = 0 := by
  unfold selectObject
  cases hr : s.registry o with
  | none => simp [sumDx, sumDy]
  | some info =>
    cases hsm : info.selectedMaterial <;> cases hos : info.onSelected <;>
      cases hcf : info.configForm <;> cases hdel : info.deleteable <;>
        simp [hr, hsm, hos, hcf, hdel, sumDx, sumDy]

/-- `unselectObject` emits no move deltas. -/
theorem unselectObject_sumDeltas (s : SState) (arg : Option Nat) :
    sumDx (unselectObject s arg).2 = 0 ∧ sumDy (unselectObject s arg).2 = 0 := by
  unfold unselectObject
  cases arg with
  | none =>
    cases hso : s.selectedObject with
    | none => simp [hso, sumDx, sumDy]
    | some o =>
      cases hr : s.registry o with
      | none => simp [hso, hr, sumDx, sumDy]
      | some info =>
        cases hm : info.unselectedMaterial <;> cases hu : info.onUnselected <;>
          simp [hso, hr, hm, hu, sumDx, sumDy]
  | some o =>
    cases hr : s.registry o with
    | none => simp [hr, sumDx, sumDy]
    | some info =>
      cases hm : info.unselectedMaterial <;> cases hu : info.onUnselected <;>
        simp [hr, hm, hu, sumDx, sumDy]

/-- `onDown` emits no move deltas. -/
theorem onDown_sumDeltas (s : SState) (hit : Option (Nat × Pos)) :
    sumDx (onDown s hit).2 = 0 ∧ sumDy (onDown s hit).2 = 0 := by
  cases hit with
  | none => simp [onDown, sumDx, sumDy]
  | some op =>
    obtain ⟨o, p⟩ := op
    obtain ⟨hu1, hu2⟩ := unselectObject_sumDeltas s s.selectedObject
    simp only [onDown]
    generalize hR : (if (s.persistentSelected && !(s.selectedObject == some o)) = true
        then unselectObject s s.selectedObject else (s, [])) = r1
    have hr1 : sumDx r1.2 = 0 ∧ sumDy r1.2 = 0 := by
      rw [← hR]
      split_ifs
      · exact ⟨hu1, hu2⟩
      · exact ⟨rfl, rfl⟩
    cases hro : r1.1.registry o with
    | none => simp [hro, hr1.1, hr1.2]
    | some info =>
      cases hod : info.onDown <;> cases hmv : info.moveable <;>
        simp [hro, hod, hmv, hr1.1, hr1.2, sumDx, sumDy, sumDx_append, sumDy_append]

/-- `onUp` emits no move deltas. -/
theorem onUp_sumDeltas (s : SState) (pos : Pos) :
    sumDx (onUp s pos).2 = 0 ∧ sumDy (onUp s pos).2 = 0 := by
  unfold onUp
  cases hso : s.selectedObject with
  | none => simp [hso, sumDx, sumDy]
  | some o =>
    cases hr : s.registry o with
    | none => simp [hso, hr, sumDx, sumDy]
    | some info =>
      obtain ⟨hs1, hs2⟩ := selectObject_sumDeltas s o
      by_cases hc : (info.selectable && s.persistentSelectable) = true
      · cases ht : info.onUp <;>
          simp [hso, hr, hc, ht, hs1, hs2, sumDx, sumDy, sumDx_append, sumDy_append]
      · cases ht : info.onUp <;>
          simp [hso, hr, hc, ht, sumDx, sumDy, sumDx_append, sumDy_append]

end UIS

/-! ## Theorems for the interaction claims -/

/-- C3 counterexample: with object 0 held as a persistent selection
(established by a click), a pointer-down on the different object 1
releases the selection immediately at pointer-down time: object 0's
`onUnselected` fires during `onDown` and the persistent-selected flag
is already false — the claim that a pointer-down on a different entity
does not release a pre-existing persistent selection is false at this
input. -/
theorem c3_counterexample :
    (UIS.run uisInit2
        [UIS.Ev.down (some (0, ((0 : ℝ), 0))), UIS.Ev.up ((0 : ℝ), 0)]).1.persistentSelected
      = true ∧
    (UIS.run uisInit2
        [UIS.Ev.down (some (0, ((0 : ℝ), 0))), UIS.Ev.up ((0 : ℝ), 0)]).1.selectedObject
      = some 0 ∧
    UIS.countUnsel 0
      (UIS.onDown
        (UIS.run uisInit2
          [UIS.Ev.down (some (0, ((0 : ℝ), 0))), UIS.Ev.up ((0 : ℝ), 0)]).1
        (some (1, ((0 : ℝ), 0)))).2 = 1 ∧
    (UIS.onDown
        (UIS.run uisInit2
          [UIS.Ev.down (some (0, ((0 : ℝ), 0))), UIS.Ev.up ((0 : ℝ), 0)]).1
        (some (1, ((0 : ℝ), 0)))).1.persistentSelected = false :=
  ⟨rfl, rfl, rfl, rfl⟩

/-- C3 amended: a pointer-down on a different entity releases a
pre-existing registered persistent selection immediately at
pointer-down time — the previous holder's `onUnselected` fires exactly
once during the down handler and the persistent-selected flag is
cleared before any pointer-up; the selection-commit at pointer-up
performs no release of the previous holder (the release has already
happened). -/
theorem c3_release_at_pointer_down :
    ∀ (s : UIS.SState) (a b : Nat) (p : UIS.Pos) (ainfo : UIS.UisInfo),
      s.persistentSelected = true → s.selectedObject = some a → b ≠ a →
      s.registry a = some ainfo → ainfo.onUnselected = true →
      UIS.countUnsel a (UIS.onDown s (some (b, p))).2 = 1 ∧
      (UIS.onDown s (some (b, p))).1.persistentSelected = false := by
  intro s a b p ainfo hps hso hne hreg hcb
  exact UIS.onDown_releases_prior s b a p ainfo hps hso (fun h => hne h.symm) hreg hcb

/-- C3 witness: the amended release property applied to a concrete
state in which object 0 is persistently selected and object 1 is
clicked. -/
theorem c3_witness :
    selState.persistentSelected = true ∧ selState.selectedObject = some 0 ∧
    (1 : Nat) ≠ 0 ∧ selState.registry 0 = some selInfo ∧
    selInfo.onUnselected = true ∧
    (UIS.countUnsel 0 (UIS.onDown selState (some (1, ((0 : ℝ), 0)))).2 = 1 ∧
     (UIS.onDown selState (some (1, ((0 : ℝ), 0)))).1.persistentSelected = false) :=
  ⟨rfl, rfl, by decide, rfl, rfl,
    c3_release_at_pointer_down selState 0 1 ((0 : ℝ), 0) selInfo rfl rfl
      (by decide) rfl rfl⟩

/-- C6 counterexample: a short drag (zero displacement) on the entity
that is itself the current persistent selection commits the selection
again, but the prior persistent selection (the same entity) receives
zero `onUnselected` calls, not exactly one — the claim, which
quantifies over every short drag session with a prior persistent
selection, is false at this input. -/
theorem c6_counterexample :
    (UIS.run uisInit2
        [UIS.Ev.down (some (0, ((0 : ℝ), 0))), UIS.Ev.up ((0 : ℝ), 0)]).1.persistentSelected
      = true ∧
    (UIS.run uisInit2
        [UIS.Ev.down (some (0, ((0 : ℝ), 0))), UIS.Ev.up ((0 : ℝ), 0)]).1.selectedObject
      = some 0 ∧
    (UIS.run uisInit2
        [UIS.Ev.down (some (0, ((0 : ℝ), 0))), UIS.Ev.up ((0 : ℝ), 0),
         UIS.Ev.down (some (0, ((0 : ℝ), 0))), UIS.Ev.up ((0 : ℝ), 0)]).1.persistentSelected
      = true ∧
    (UIS.run uisInit2
        [UIS.Ev.down (some (0, ((0 : ℝ), 0))), UIS.Ev.up ((0 : ℝ), 0),
         UIS.Ev.down (some (0, ((0 : ℝ), 0))), UIS.Ev.up ((0 : ℝ), 0)]).1.selectedObject
      = some 0 ∧
    UIS.countUnsel 0
      (UIS.run uisInit2
        [UIS.Ev.down (some (0, ((0 : ℝ), 0))), UIS.Ev.up ((0 : ℝ), 0),
         UIS.Ev.down (some (0, ((0 : ℝ), 0))), UIS.Ev.up ((0 : ℝ), 0)]).2 = 0 :=
  ⟨rfl, rfl, rfl, rfl, rfl⟩

/-- C6 amended: for every drag session on a registered selectable
entity whose move positions all stay within the threshold, the entity
is the persistent selection immediately after pointer-up; and a prior
registered persistent selection *different from the entity* (with an
`onUnselected` callback) receives exactly one `onUnselected` call,
which happens before the new selection is committed (a prior selection
equal to the entity itself receives none). -/
theorem c6_short_drag_commit :
    ∀ (s0 : UIS.SState) (e : Nat) (info : UIS.UisInfo) (p0 pUp : UIS.Pos)
      (moves : List UIS.Pos),
      s0.registry e = some info → info.selectable = true →
      (∀ q ∈ moves, ¬ UIS.distFrom p0 q > s0.selectAllowedRange) →
      (UIS.run s0 (UIS.sessionEvents e p0 moves pUp)).1.selectedObject = some e ∧
      (UIS.run s0 (UIS.sessionEvents e p0 moves pUp)).1.persistentSelected = true ∧
      (∀ (f : Nat) (finfo : UIS.UisInfo),
        s0.persistentSelected = true → s0.selectedObject = some f → f ≠ e →
        s0.registry f = some finfo → finfo.onUnselected = true →
        ∃ t1 t2, (UIS.run s0 (UIS.sessionEvents e p0 moves pUp)).2 = t1 ++ t2 ∧
          UIS.countUnsel f t1 = 1 ∧ UIS.countUnsel f t2 = 0 ∧
          UIS.countSel e t1 = 0) := by
  intro s0 e info p0 pUp moves hreg hsel hmv
  obtain ⟨d1, d2, d3, d4, d5, d6, d7, d8⟩ := UIS.onDown_spec s0 e p0 info hreg
  obtain ⟨m1, m2, m3, m4, m5, m6, m7, m8, m9⟩ :=
    UIS.run_moves_frame moves (UIS.onDown s0 (some (e, p0))).1
  have hps : (UIS.run (UIS.onDown s0 (some (e, p0))).1
      (moves.map UIS.Ev.move)).1.persistentSelectable = true := by
    rw [UIS.run_moves_ps_le moves _ p0 s0.selectAllowedRange d3 d6 hmv, d2, hsel]
  have hsoe : (UIS.run (UIS.onDown s0 (some (e, p0))).1
      (moves.map UIS.Ev.move)).1.selectedObject = some e := m4.trans d1
  have hrege : (UIS.run (UIS.onDown s0 (some (e, p0))).1
      (moves.map UIS.Ev.move)).1.registry e = some info := by
    rw [m1, d5]; exact hreg
  obtain ⟨c1, c2, c3⟩ := UIS.onUp_commit _ pUp e info hsoe hrege hsel hps
  refine ⟨?_, ?_, ?_⟩
  · rw [UIS.sessionEvents]
    simp only [UIS.run, UIS.step, UIS.run_append, List.append_nil]
    exact c1
  · rw [UIS.sessionEvents]
    simp only [UIS.run, UIS.step, UIS.run_append, List.append_nil]
    exact c2
  · intro f finfo hps0 hso0 hne hregf hcb
    obtain ⟨r1, r2⟩ := UIS.onDown_releases_prior s0 e f p0 finfo hps0 hso0 hne hregf hcb
    refine ⟨(UIS.onDown s0 (some (e, p0))).2,
      (UIS.run (UIS.onDown s0 (some (e, p0))).1 (moves.map UIS.Ev.move)).2 ++
        (UIS.onUp (UIS.run (UIS.onDown s0 (some (e, p0))).1
          (moves.map UIS.Ev.move)).1 pUp).2,
      ?_, r1, ?_, d8 e⟩
    · rw [UIS.sessionEvents]
      simp only [UIS.run, UIS.step, UIS.run_append, List.append_nil]
    · rw [UIS.countUnsel_append, m8 f, c3 f]

/-- C6 witness: the amended commit property applied to a concrete
session — a click on object 1 while object 0 is the persistent
selection. -/
theorem c6_witness :
    selState.registry 1 = some selInfo ∧ selInfo.selectable = true ∧
    (∀ q ∈ ([] : List UIS.Pos), ¬ UIS.distFrom ((0 : ℝ), 0) q >
      selState.selectAllowedRange) ∧
    ((UIS.run selState
        (UIS.sessionEvents 1 ((0 : ℝ), 0) [] ((0 : ℝ), 0))).1.selectedObject = some 1 ∧
     (UIS.run selState
        (UIS.sessionEvents 1 ((0 : ℝ), 0) [] ((0 : ℝ), 0))).1.persistentSelected = true ∧
     (∀ (f : Nat) (finfo : UIS.UisInfo),
       selState.persistentSelected = true → selState.selectedObject = some f →
       f ≠ 1 → selState.registry f = some finfo → finfo.onUnselected = true →
       ∃ t1 t2,
         (UIS.run selState
           (UIS.sessionEvents 1 ((0 : ℝ), 0) [] ((0 : ℝ), 0))).2 = t1 ++ t2 ∧
         UIS.countUnsel f t1 = 1 ∧ UIS.countUnsel f t2 = 0 ∧
         UIS.countSel 1 t1 = 0)) :=
  have hmv : ∀ q ∈ ([] : List UIS.Pos),
      ¬ UIS.distFrom ((0 : ℝ), 0) q > selState.selectAllowedRange :=
    fun q hq => absurd hq (List.not_mem_nil q)
  ⟨rfl, rfl, hmv,
    c6_short_drag_commit selState 1 selInfo ((0 : ℝ), 0) ((0 : ℝ), 0) [] rfl rfl hmv⟩

/-- C7 counterexample: a drag session (down at `(0,0)`, one move to
`(1,0)`, up at `(5,0)`) on an object with an `onMove` handler: the sum
of all deltas passed to `onMove` is `(1,0)`, but the position at
pointer-up minus the position at pointer-down is `(5,0)` — the claimed
equality of the two is false at this input (deltas stop at the last
move; the up event's own position never reaches `onMove`). -/
theorem c7_counterexample :
    UIS.sumDx (UIS.run c7state c7events).2 = 1 ∧
    UIS.sumDy (UIS.run c7state c7events).2 = 0 ∧
    UIS.sumDx (UIS.run c7state c7events).2 ≠ (5 : ℝ) - 0 := by
  have h1 : UIS.sumDx (UIS.run c7state c7events).2 = 1 := by
    simp [c7events, c7state, regMove, moveInfo, UIS.run, UIS.step, UIS.onDown,
      UIS.onMove, UIS.onUp, UIS.checkRangeUpd, UIS.selectObject, UIS.unselectObject,
      UIS.initState, UIS.sumDx, UIS.sumDy]
  have h2 : UIS.sumDy (UIS.run c7state c7events).2 = 0 := by
    simp [c7events, c7state, regMove, moveInfo, UIS.run, UIS.step, UIS.onDown,
      UIS.onMove, UIS.onUp, UIS.checkRangeUpd, UIS.selectObject, UIS.unselectObject,
      UIS.initState, UIS.sumDx, UIS.sumDy]
  refine ⟨h1, h2, ?_⟩
  rw [h1]
  norm_num

/-- C7 amended: for every drag session on a registered moveable entity,
(a) if some move position exceeds the threshold, no persistent
selection results (the slot is cleared at pointer-up), and (b) if the
record has an `onMove` handler, the sum of all deltas passed to
`onMove` equals the position of the *last move* minus the position at
pointer-down (exactly, over the reals) — this equals the pointer-up
position minus the down position only when the up event is delivered
at the same position as the last move. -/
theorem c7_long_drag :
    ∀ (s0 : UIS.SState) (e : Nat) (info : UIS.UisInfo) (p0 pUp : UIS.Pos)
      (moves : List UIS.Pos),
      s0.registry e = some info → info.moveable = true →
      ((∃ q ∈ moves, UIS.distFrom p0 q > s0.selectAllowedRange) →
        (UIS.run s0 (UIS.sessionEvents e p0 moves pUp)).1.selectedObject = none ∧
        (UIS.run s0 (UIS.sessionEvents e p0 moves pUp)).1.persistentSelected = false) ∧
      (info.onMove = true →
        UIS.sumDx (UIS.run s0 (UIS.sessionEvents e p0 moves pUp)).2 =
          (moves.getLastD p0).1 - p0.1 ∧
        UIS.sumDy (UIS.run s0 (UIS.sessionEvents e p0 moves pUp)).2 =
          (moves.getLastD p0).2 - p0.2) := by
  intro s0 e info p0 pUp moves hreg hmvb
  obtain ⟨d1, d2, d3, d4, d5, d6, d7, d8⟩ := UIS.onDown_spec s0 e p0 info hreg
  have hdrag : (UIS.onDown s0 (some (e, p0))).1.isDragging = true := by
    simp [d7, hmvb]
  constructor
  · rintro ⟨q, hqmem, hqfar⟩
    obtain ⟨l1, l2, rfl⟩ := List.append_of_mem hqmem
    obtain ⟨a1, a2, a3, a4, a5, a6, a7, a8, a9⟩ :=
      UIS.run_moves_frame l1 (UIS.onDown s0 (some (e, p0))).1
    have hq : (UIS.onMove (UIS.run (UIS.onDown s0 (some (e, p0))).1
        (l1.map UIS.Ev.move)).1 q).1.persistentSelectable = false := by
      by_cases hselc : info.selectable = true
      · refine UIS.onMove_ps_far _ q e info (a5.trans hdrag) (a4.trans d1) ?_ hselc ?_
        · rw [a1, d5]; exact hreg
        · rw [a7, d3, a3, d6]
          simpa using hqfar
      · have hsf : info.selectable = false := by
          revert hselc; cases info.selectable <;> simp
        have h0 : (UIS.onDown s0 (some (e, p0))).1.persistentSelectable = false := by
          rw [d2, hsf]
        exact UIS.onMove_ps_false _ q (UIS.run_moves_ps_false l1 _ h0)
    obtain ⟨b1, b2, b3, b4, b5, b6, b7, b8, b9⟩ :=
      UIS.onMove_frame (UIS.run (UIS.onDown s0 (some (e, p0))).1
        (l1.map UIS.Ev.move)).1 q
    obtain ⟨e1, e2, e3, e4, e5, e6, e7, e8, e9⟩ :=
      UIS.run_moves_frame l2 (UIS.onMove (UIS.run (UIS.onDown s0 (some (e, p0))).1
        (l1.map UIS.Ev.move)).1 q).1
    have hfin : (UIS.run (UIS.onMove (UIS.run (UIS.onDown s0 (some (e, p0))).1
        (l1.map UIS.Ev.move)).1 q).1 (l2.map UIS.Ev.move)).1.persistentSelectable
        = false := UIS.run_moves_ps_false l2 _ hq
    have hso2 : (UIS.run (UIS.onMove (UIS.run (UIS.onDown s0 (some (e, p0))).1
        (l1.map UIS.Ev.move)).1 q).1 (l2.map UIS.Ev.move)).1.selectedObject
        = some e := e4.trans (b4.trans (a4.trans d1))
    have hreg2 : (UIS.run (UIS.onMove (UIS.run (UIS.onDown s0 (some (e, p0))).1
        (l1.map UIS.Ev.move)).1 q).1 (l2.map UIS.Ev.move)).1.registry e
        = some info := by
      rw [e1, b1, a1, d5]; exact hreg
    have hcnd : (info.selectable && (UIS.run (UIS.onMove
        (UIS.run (UIS.onDown s0 (some (e, p0))).1 (l1.map UIS.Ev.move)).1 q).1
        (l2.map UIS.Ev.move)).1.persistentSelectable) = false := by
      rw [hfin]; exact Bool.and_false _
    obtain ⟨u1, u2, u3⟩ := UIS.onUp_clear _ pUp e info hso2 hreg2 hcnd
    constructor
    · rw [UIS.sessionEvents]
      simp only [List.map_append, List.map_cons, List.cons_append, List.append_assoc,
        UIS.run, UIS.step, UIS.run_append, List.append_nil]
      exact u1
    · rw [UIS.sessionEvents]
      simp only [List.map_append, List.map_cons, List.cons_append, List.append_assoc,
        UIS.run, UIS.step, UIS.run_append, List.append_nil]
      exact u2
  · intro hcbMove
    have tele := UIS.run_moves_deltas moves (UIS.onDown s0 (some (e, p0))).1 e info p0
      hdrag d1 (by rw [d5]; exact hreg) hcbMove d4
    obtain ⟨z1, z2⟩ := UIS.onDown_sumDeltas s0 (some (e, p0))
    obtain ⟨y1, y2⟩ := UIS.onUp_sumDeltas (UIS.run (UIS.onDown s0 (some (e, p0))).1
      (moves.map UIS.Ev.move)).1 pUp
    constructor
    · rw [UIS.sessionEvents]
      simp only [UIS.run, UIS.step, UIS.run_append, List.append_nil]
      rw [UIS.sumDx_append, UIS.sumDx_append, z1, tele.1, y1]
      ring
    · rw [UIS.sessionEvents]
      simp only [UIS.run, UIS.step, UIS.run_append, List.append_nil]
      rw [UIS.sumDy_append, UIS.sumDy_append, z2, tele.2, y2]
      ring

/-- C7 witness: the amended property applied to a concrete session on
object 0 (moveable, with `onMove`, not selectable) whose single move to
`(20,0)` exceeds the threshold 15. -/
theorem c7_witness :
    c7state.registry 0 = some moveInfo ∧ moveInfo.moveable = true ∧
    (∃ q ∈ [((20 : ℝ), (0 : ℝ))],
      UIS.distFrom ((0 : ℝ), 0) q > c7state.selectAllowedRange) ∧
    moveInfo.onMove = true ∧
    ((UIS.run c7state (UIS.sessionEvents 0 ((0 : ℝ), 0) [((20 : ℝ), (0 : ℝ))]
        ((20 : ℝ), 0))).1.selectedObject = none ∧
     (UIS.run c7state (UIS.sessionEvents 0 ((0 : ℝ), 0) [((20 : ℝ), (0 : ℝ))]
        ((20 : ℝ), 0))).1.persistentSelected = false) ∧
    (UIS.sumDx (UIS.run c7state (UIS.sessionEvents 0 ((0 : ℝ), 0)
        [((20 : ℝ), (0 : ℝ))] ((20 : ℝ), 0))).2 =
      (([((20 : ℝ), (0 : ℝ))]).getLastD ((0 : ℝ), 0)).1 - ((0 : ℝ), (0 : ℝ)).1 ∧
     UIS.sumDy (UIS.run c7state (UIS.sessionEvents 0 ((0 : ℝ), 0)
        [((20 : ℝ), (0 : ℝ))] ((20 : ℝ), 0))).2 =
      (([((20 : ℝ), (0 : ℝ))]).getLastD ((0 : ℝ), 0)).2 - ((0 : ℝ), (0 : ℝ)).2) := by
  have hex : ∃ q ∈ [((20 : ℝ), (0 : ℝ))],
      UIS.distFrom ((0 : ℝ), 0) q > c7state.selectAllowedRange := by
    refine ⟨((20 : ℝ), (0 : ℝ)), List.mem_singleton_self _, ?_⟩
    have hs : Real.sqrt (((20 : ℝ) - 0) * ((20 : ℝ) - 0) + ((0 : ℝ) - 0) * ((0 : ℝ) - 0))
        = 20 := by
      rw [show (((20 : ℝ) - 0) * ((20 : ℝ) - 0) + ((0 : ℝ) - 0) * ((0 : ℝ) - 0))
        = (20 : ℝ) ^ 2 by norm_num]
      exact Real.sqrt_sq (by norm_num)
    show UIS.distFrom ((0 : ℝ), 0) ((20 : ℝ), (0 : ℝ)) > c7state.selectAllowedRange
    rw [UIS.distFrom]
    rw [show c7state.selectAllowedRange = (15 : ℝ) from rfl]
    rw [hs]
    norm_num
  have hmain := c7_long_drag c7state 0 moveInfo ((0 : ℝ), 0) ((20 : ℝ), 0)
    [((20 : ℝ), (0 : ℝ))] rfl rfl
  exact ⟨rfl, rfl, hex, rfl, hmain.1 hex, hmain.2 rfl⟩

/-- C8: after any event sequence from the initial state, at most one
entity holds the persistent selection and at most one entity occupies
the `selectedObject` slot (both live in a single shared slot of the
interaction state). -/
theorem c8_single_selection :
    ∀ (reg : Nat → Option UIS.UisInfo) (mat : Nat → Nat) (range : ℝ)
      (events : List UIS.Ev) (a b : Nat),
      (UIS.holdsPersistent (UIS.run (UIS.initState reg mat range) events).1 a →
        UIS.holdsPersistent (UIS.run (UIS.initState reg mat range) events).1 b →
        a = b) ∧
      ((UIS.run (UIS.initState reg mat range) events).1.selectedObject = some a →
        (UIS.run (UIS.initState reg mat range) events).1.selectedObject = some b →
        a = b) := by
  intro reg mat range events a b
  constructor
  · intro ha hb
    exact Option.some.inj (ha.1.symm.trans hb.1)
  · intro ha hb
    exact Option.some.inj (ha.symm.trans hb)

/-- C8 witness: the single-selection property applied after a concrete
click that establishes object 0 as the persistent selection. -/
theorem c8_witness :
    UIS.holdsPersistent (UIS.run (UIS.initState regOne (fun _ => 0) 15) c8events).1 0 ∧
    (0 : Nat) = 0 :=
  have h : UIS.holdsPersistent
      (UIS.run (UIS.initState regOne (fun _ => 0) 15) c8events).1 0 := ⟨rfl, rfl⟩
  ⟨h, (c8_single_selection regOne (fun _ => 0) 15 c8events 0 0).1 h h⟩

/-- C10: calling `unselectObject(o)` on a registered object `o` clears
the shared selection state — `selectedObject` becomes `none`,
`persistentSelected` becomes false, the config form is hidden — even
when `o` is not the current selection `c`; the discarded current
selection's `onUnselected` is never invoked and its material is left
untouched, while `o`'s own `onUnselected` fires iff present. -/
theorem c10_unselect_nonselected :
    ∀ (s : UIS.SState) (o c : Nat) (info : UIS.UisInfo),
      s.registry o = some info → s.selectedObject = some c → c ≠ o →
      (UIS.unselectObject s (some o)).1.selectedObject = none ∧
      (UIS.unselectObject s (some o)).1.persistentSelected = false ∧
      UIS.TE.clearForm ∈ (UIS.unselectObject s (some o)).2 ∧
      UIS.countUnsel c (UIS.unselectObject s (some o)).2 = 0 ∧
      UIS.countUnsel o (UIS.unselectObject s (some o)).2 =
        (if info.onUnselected then 1 else 0) ∧
      (UIS.unselectObject s (some o)).1.material c = s.material c := by
  intro s o c info hreg hso hne
  obtain ⟨u1, u2, u3, u4, u5, u6⟩ := UIS.unselectObject_spec s o info hreg
  exact ⟨u2, u1, u5, u4 c hne, u3, u6 c hne⟩

/-- C10 witness: unselecting the non-selected object 1 while object 0
is the current selection. -/
theorem c10_witness :
    selState.registry 1 = some selInfo ∧ selState.selectedObject = some 0 ∧
    (0 : Nat) ≠ 1 ∧
    ((UIS.unselectObject selState (some 1)).1.selectedObject = none ∧
     (UIS.unselectObject selState (some 1)).1.persistentSelected = false ∧
     UIS.TE.clearForm ∈ (UIS.unselectObject selState (some 1)).2 ∧
     UIS.countUnsel 0 (UIS.unselectObject selState (some 1)).2 = 0 ∧
     UIS.countUnsel 1 (UIS.unselectObject selState (some 1)).2 =
       (if selInfo.onUnselected then 1 else 0) ∧
     (UIS.unselectObject selState (some 1)).1.material 0 = selState.material 0) :=
  ⟨rfl, rfl, by decide,
    c10_unselect_nonselected selState 1 0 selInfo rfl rfl (by decide)⟩

/-! ## Helper lemmas about the portal geometry lifecycle -/

namespace PortalGeom

theorem mem_removeBody (p : List Nat) (b x : Nat) :
    x ∈ removeBody p b ↔ x ∈ p ∧ x ≠ b := by
  simp [removeBody]

theorem mem_foldl_removeBody (bs : List Nat) : ∀ (p : List Nat) (x : Nat),
    x ∈ bs.foldl removeBody p ↔ x ∈ p ∧ x ∉ bs := by
  induction bs with
  | nil => intro p x; simp
  | cons b t ih =>
    intro p x
    rw [List.foldl_cons, ih, mem_removeBody]
    constructor
    · rintro ⟨⟨hp, hnb⟩, hnt⟩
      exact ⟨hp, by simp [hnb, hnt]⟩
    · rintro ⟨hp, hn⟩
      simp only [List.mem_cons, not_or] at hn
      exact ⟨⟨hp, hn.1⟩, hn.2⟩

theorem mem_destroy_fold (ms : List PMesh) : ∀ (p : List Nat) (x : Nat),
    x ∈ ms.foldl (fun p m => m.physicsBodies.foldl removeBody p) p ↔
      x ∈ p ∧ ∀ m ∈ ms, x ∉ m.physicsBodies := by
  induction ms with
  | nil => intro p x; simp
  | cons m t ih =>
    intro p x
    rw [List.foldl_cons, ih, mem_foldl_removeBody]
    constructor
    · rintro ⟨⟨hp, hm⟩, ht⟩
      refine ⟨hp, fun m' hm' => ?_⟩
      rcases List.mem_cons.mp hm' with rfl | h
      exacts [hm, ht m' h]
    · rintro ⟨hp, hall⟩
      exact ⟨⟨hp, hall m (List.mem_cons_self m t)⟩,
        fun m' h => hall m' (List.mem_cons_of_mem m h)⟩

/-- `destroyPortal` deregisters every body owned by some mesh. -/
theorem destroyPortal_not_mem (w : PortalWorld) (b : Nat)
    (h : ∃ m ∈ w.children, b ∈ m.physicsBodies) :
    b ∉ (destroyPortal w).physics := by
  intro hb
  simp only [destroyPortal] at hb
  rw [mem_destroy_fold] at hb
  obtain ⟨m, hm, hbm⟩ := h
  exact hb.2 m hm hbm

/-- After `destroyPortal` the surviving mesh set owns no bodies. -/
theorem destroyPortal_ownedBodies (w : PortalWorld) :
    ownedBodies (destroyPortal w) = [] := by
  simp only [destroyPortal, ownedBodies]
  rw [List.eq_nil_iff_forall_not_mem]
  intro x hx
  rw [List.mem_flatMap] at hx
  obtain ⟨m, hm, hxm⟩ := hx
  rw [List.mem_map] at hm
  obtain ⟨m0, _, rfl⟩ := hm
  simp at hxm

/-- When the engine registers exactly the owned bodies, `destroyPortal`
empties the engine. -/
theorem destroyPortal_physics (w : PortalWorld) (h : w.physics = ownedBodies w) :
    (destroyPortal w).physics = [] := by
  simp only [destroyPortal]
  rw [List.eq_nil_iff_forall_not_mem]
  intro x hx
  rw [mem_destroy_fold] at hx
  obtain ⟨hxp, hall⟩ := hx
  rw [h, ownedBodies, List.mem_flatMap] at hxp
  obtain ⟨m, hm, hxm⟩ := hxp
  exact hall m hm hxm

/-- `destroyPortal` preserves the invariant (trivially: everything is
gone). -/
theorem destroyPortal_inv (w : PortalWorld) (h : Inv w) :
    Inv (destroyPortal w) := by
  refine ⟨?_, ?_, ?_⟩
  · rw [destroyPortal_physics w h.1, destroyPortal_ownedBodies w]
  · rw [destroyPortal_physics w h.1]
    exact List.nodup_nil
  · rw [destroyPortal_physics w h.1]
    intro b hb
    simp at hb

/-- Adding one mesh with two fresh bodies preserves the invariant
(shape shared by `createTorus`, `createTube`, `createBack`). -/
theorem createTorus_inv (w : PortalWorld) (h : Inv w) : Inv (createTorus w) := by
  obtain ⟨h1, h2, h3⟩ := h
  have hn : w.nextBody ∉ w.physics := fun hc => lt_irrefl _ (h3 _ hc)
  have hn1 : w.nextBody + 1 ∉ w.physics := fun hc => by
    have := h3 _ hc; omega
  refine ⟨?_, ?_, ?_⟩
  · simp only [createTorus, newBody, ownedBodies, List.flatMap_append,
      List.flatMap_cons, List.flatMap_nil]
    rw [← ownedBodies, ← h1]
    simp
  · simp only [createTorus, newBody]
    rw [List.append_assoc]
    rw [List.nodup_append]
    refine ⟨h2, ?_, ?_⟩
    · simp
    · intro a ha hb
      simp at hb
      rcases hb with rfl | rfl
      · exact hn ha
      · exact hn1 ha
  · simp only [createTorus, newBody]
    intro b hb
    simp only [List.append_assoc, List.mem_append] at hb
    rcases hb with hb | hb
    · have := h3 _ hb; omega
    · simp at hb
      rcases hb with rfl | rfl <;> omega

theorem createTube_inv (w : PortalWorld) (h : Inv w) : Inv (createTube w) :=
  createTorus_inv w h

theorem createBack_inv (w : PortalWorld) (h : Inv w) : Inv (createBack w) :=
  createTorus_inv w h

/-- Adding body-less meshes preserves the invariant. -/
theorem createMist_inv (w : PortalWorld) (h : Inv w) : Inv (createMist w) := by
  obtain ⟨h1, h2, h3⟩ := h
  refine ⟨?_, h2, h3⟩
  simp only [createMist, ownedBodies, List.flatMap_append, List.flatMap_cons,
    List.flatMap_nil]
  rw [← ownedBodies, ← h1]
  simp

theorem createScrewHeads_inv (w : PortalWorld) (h : Inv w) :
    Inv (createScrewHeads w) := by
  obtain ⟨h1, h2, h3⟩ := h
  refine ⟨?_, h2, h3⟩
  simp only [createScrewHeads, ownedBodies, List.flatMap_append, List.flatMap_cons,
    List.flatMap_nil]
  rw [← ownedBodies, ← h1]
  simp

theorem createPointLight_inv (w : PortalWorld) (h : Inv w) :
    Inv (createPointLight w) := by
  obtain ⟨h1, h2, h3⟩ := h
  unfold createPointLight
  split_ifs
  · exact ⟨h1, h2, h3⟩
  · refine ⟨?_, h2, h3⟩
    simp only [ownedBodies, List.flatMap_append, List.flatMap_cons, List.flatMap_nil]
    rw [← ownedBodies, ← h1]
    simp

theorem createPortal_inv (w : PortalWorld) (h : Inv w) : Inv (createPortal w) :=
  createScrewHeads_inv _ (createBack_inv _ (createTube_inv _ (createMist_inv _
    (createPointLight_inv _ (createTorus_inv _ h)))))

theorem reDraw_inv (w : PortalWorld) (h : Inv w) : Inv (reDraw w) :=
  createPortal_inv _ (destroyPortal_inv _ h)

theorem emptyWorld_inv : Inv emptyWorld := by
  refine ⟨rfl, List.nodup_nil, ?_⟩
  intro b hb
  simp [emptyWorld] at hb

theorem iterate_reDraw_inv (n : Nat) :
    Inv (reDraw^[n] (createPortal emptyWorld)) := by
  induction n with
  | zero => exact createPortal_inv _ emptyWorld_inv
  | succ k ih =>
    rw [Function.iterate_succ_apply']
    exact reDraw_inv _ ih

end PortalGeom

/-- C9: `destroyPortal` removes every physics body owned by the
portal's meshes from the physics engine (and the surviving group owns
none), and for any number of repeated `reDraw` calls the engine
registers exactly the bodies the current mesh set requires — the same
handles, no orphaned body, no duplicates. -/
theorem c9_portal_body_hygiene :
    (∀ (w : PortalGeom.PortalWorld) (b : Nat),
      (∃ m ∈ w.children, b ∈ m.physicsBodies) →
      b ∉ (PortalGeom.destroyPortal w).physics ∧
      PortalGeom.ownedBodies (PortalGeom.destroyPortal w) = []) ∧
    (∀ n : Nat,
      (PortalGeom.reDraw^[n] (PortalGeom.createPortal PortalGeom.emptyWorld)).physics =
        PortalGeom.ownedBodies
          (PortalGeom.reDraw^[n] (PortalGeom.createPortal PortalGeom.emptyWorld)) ∧
      (PortalGeom.reDraw^[n]
        (PortalGeom.createPortal PortalGeom.emptyWorld)).physics.Nodup) := by
  constructor
  · intro w b h
    exact ⟨PortalGeom.destroyPortal_not_mem w b h,
      PortalGeom.destroyPortal_ownedBodies w⟩
  · intro n
    obtain ⟨h1, h2, h3⟩ := PortalGeom.iterate_reDraw_inv n
    exact ⟨h1, h2⟩

/-- C9 witness: the destroy part applied to a concrete world whose
single mesh owns body 5. -/
theorem c9_witness :
    (∃ m ∈ c9world.children, 5 ∈ m.physicsBodies) ∧
    (5 ∉ (PortalGeom.destroyPortal c9world).physics ∧
     PortalGeom.ownedBodies (PortalGeom.destroyPortal c9world) = []) :=
  have h : ∃ m ∈ c9world.children, 5 ∈ m.physicsBodies := by decide
  ⟨h, c9_portal_body_hygiene.1 c9world 5 h⟩

end PubsubGoldberg
